import Mathlib

/-!
Verification development for the cube-alarm BLE controller (Pico W core).

The definitions below are a shallow embedding of the Python sources:
  * `src/pico/gan_mpy.py` — key derivation and packet encrypt/decrypt
    (the `ucryptolib.aes` primitive the code calls is AES-128; it is
    embedded here following FIPS-197, and the CBC-mode single-block
    semantics of `aes(key, 2, iv)` is made explicit),
  * `src/pico/main.py`  — facelets decoding, solved predicate, move
    parsing, and the retry/disconnect state handling.

Bytes are modelled as `Nat` (values 0..255), byte strings as `List Nat`,
Python `int` results that may be negative as `Int`, and fallible Python
code (exceptions / `None` returns) as `Option`.
-/

set_option maxRecDepth 100000

namespace CubeAlarm

/-! ## AES-128 block cipher (FIPS-197), the `ucryptolib.aes` primitive -/

def sbox : List Nat := [
  99, 124, 119, 123, 242, 107, 111, 197, 48, 1, 103, 43, 254, 215, 171, 118,
  202, 130, 201, 125, 250, 89, 71, 240, 173, 212, 162, 175, 156, 164, 114, 192,
  183, 253, 147, 38, 54, 63, 247, 204, 52, 165, 229, 241, 113, 216, 49, 21,
  4, 199, 35, 195, 24, 150, 5, 154, 7, 18, 128, 226, 235, 39, 178, 117,
  9, 131, 44, 26, 27, 110, 90, 160, 82, 59, 214, 179, 41, 227, 47, 132,
  83, 209, 0, 237, 32, 252, 177, 91, 106, 203, 190, 57, 74, 76, 88, 207,
  208, 239, 170, 251, 67, 77, 51, 133, 69, 249, 2, 127, 80, 60, 159, 168,
  81, 163, 64, 143, 146, 157, 56, 245, 188, 182, 218, 33, 16, 255, 243, 210,
  205, 12, 19, 236, 95, 151, 68, 23, 196, 167, 126, 61, 100, 93, 25, 115,
  96, 129, 79, 220, 34, 42, 144, 136, 70, 238, 184, 20, 222, 94, 11, 219,
  224, 50, 58, 10, 73, 6, 36, 92, 194, 211, 172, 98, 145, 149, 228, 121,
  231, 200, 55, 109, 141, 213, 78, 169, 108, 86, 244, 234, 101, 122, 174, 8,
  186, 120, 37, 46, 28, 166, 180, 198, 232, 221, 116, 31, 75, 189, 139, 138,
  112, 62, 181, 102, 72, 3, 246, 14, 97, 53, 87, 185, 134, 193, 29, 158,
  225, 248, 152, 17, 105, 217, 142, 148, 155, 30, 135, 233, 206, 85, 40, 223,
  140, 161, 137, 13, 191, 230, 66, 104, 65, 153, 45, 15, 176, 84, 187, 22]

def invSbox : List Nat := [
  82, 9, 106, 213, 48, 54, 165, 56, 191, 64, 163, 158, 129, 243, 215, 251,
  124, 227, 57, 130, 155, 47, 255, 135, 52, 142, 67, 68, 196, 222, 233, 203,
  84, 123, 148, 50, 166, 194, 35, 61, 238, 76, 149, 11, 66, 250, 195, 78,
  8, 46, 161, 102, 40, 217, 36, 178, 118, 91, 162, 73, 109, 139, 209, 37,
  114, 248, 246, 100, 134, 104, 152, 22, 212, 164, 92, 204, 93, 101, 182, 146,
  108, 112, 72, 80, 253, 237, 185, 218, 94, 21, 70, 87, 167, 141, 157, 132,
  144, 216, 171, 0, 140, 188, 211, 10, 247, 228, 88, 5, 184, 179, 69, 6,
  208, 44, 30, 143, 202, 63, 15, 2, 193, 175, 189, 3, 1, 19, 138, 107,
  58, 145, 17, 65, 79, 103, 220, 234, 151, 242, 207, 206, 240, 180, 230, 115,
  150, 172, 116, 34, 231, 173, 53, 133, 226, 249, 55, 232, 28, 117, 223, 110,
  71, 241, 26, 113, 29, 41, 197, 137, 111, 183, 98, 14, 170, 24, 190, 27,
  252, 86, 62, 75, 198, 210, 121, 32, 154, 219, 192, 254, 120, 205, 90, 244,
  31, 221, 168, 51, 136, 7, 199, 49, 177, 18, 16, 89, 39, 128, 236, 95,
  96, 81, 127, 169, 25, 181, 74, 13, 45, 229, 122, 159, 147, 201, 156, 239,
  160, 224, 59, 77, 174, 42, 245, 176, 200, 235, 187, 60, 131, 83, 153, 97,
  23, 43, 4, 126, 186, 119, 214, 38, 225, 105, 20, 99, 85, 33, 12, 125]

def rcon : List Nat := [1, 2, 4, 8, 16, 32, 64, 128, 27, 54]

/-- Multiplication by x in GF(2^8) modulo x^8+x^4+x^3+x+1. -/
def xtime (a : Nat) : Nat :=
  if 128 ≤ a % 256 then ((a % 256) * 2) ^^^ 0x11b else (a % 256) * 2

/-- GF(2^8) product, double-and-add over the 8 bits of `b`. -/
def gmulAux : Nat → Nat → Nat → Nat → Nat
  | 0, _, _, acc => acc
  | fuel + 1, a, b, acc =>
      gmulAux fuel (xtime a) (b / 2) (if b % 2 = 1 then acc ^^^ a else acc)

def gmul (a b : Nat) : Nat := gmulAux 8 a b 0

def subWord (w : List Nat) : List Nat := w.map (fun x => sbox.getD x 0)

def rotWord (w : List Nat) : List Nat := w.drop 1 ++ w.take 1

def xorW (a b : List Nat) : List Nat := List.zipWith (· ^^^ ·) a b

/-- One step of the AES-128 key schedule: append word `i` (`i = w.length`). -/
def expandStep (w : List (List Nat)) : List (List Nat) :=
  let i := w.length
  let t := w.getD (i - 1) []
  let t := if i % 4 = 0 then
      xorW (subWord (rotWord t)) [rcon.getD (i / 4 - 1) 0, 0, 0, 0]
    else t
  w ++ [xorW (w.getD (i - 4) []) t]

def expandSteps : List (List Nat) → Nat → List (List Nat)
  | w, 0 => w
  | w, n + 1 => expandSteps (expandStep w) n

/-- AES-128 key expansion: 44 four-byte words. -/
def expandKey (key : List Nat) : List (List Nat) :=
  expandSteps [key.take 4, (key.drop 4).take 4, (key.drop 8).take 4,
               (key.drop 12).take 4] 40

/-- Flattened round key `r` (bytes in state order). -/
def roundKey (w : List (List Nat)) (r : Nat) : List Nat :=
  ((w.drop (4 * r)).take 4).flatten

def addRoundKey (s k : List Nat) : List Nat := List.zipWith (· ^^^ ·) s k

def subBytes (s : List Nat) : List Nat := s.map (fun x => sbox.getD x 0)

def invSubBytes (s : List Nat) : List Nat := s.map (fun x => invSbox.getD x 0)

def shiftRowsIdx : List Nat := [0, 5, 10, 15, 4, 9, 14, 3, 8, 13, 2, 7, 12, 1, 6, 11]

def invShiftRowsIdx : List Nat := [0, 13, 10, 7, 4, 1, 14, 11, 8, 5, 2, 15, 12, 9, 6, 3]

def shiftRows (s : List Nat) : List Nat := shiftRowsIdx.map (fun i => s.getD i 0)

def invShiftRows (s : List Nat) : List Nat := invShiftRowsIdx.map (fun i => s.getD i 0)

def mixCol (a0 a1 a2 a3 : Nat) : List Nat :=
  [gmul a0 2 ^^^ gmul a1 3 ^^^ a2 ^^^ a3,
   a0 ^^^ gmul a1 2 ^^^ gmul a2 3 ^^^ a3,
   a0 ^^^ a1 ^^^ gmul a2 2 ^^^ gmul a3 3,
   gmul a0 3 ^^^ a1 ^^^ a2 ^^^ gmul a3 2]

def invMixCol (a0 a1 a2 a3 : Nat) : List Nat :=
  [gmul a0 14 ^^^ gmul a1 11 ^^^ gmul a2 13 ^^^ gmul a3 9,
   gmul a0 9 ^^^ gmul a1 14 ^^^ gmul a2 11 ^^^ gmul a3 13,
   gmul a0 13 ^^^ gmul a1 9 ^^^ gmul a2 14 ^^^ gmul a3 11,
   gmul a0 11 ^^^ gmul a1 13 ^^^ gmul a2 9 ^^^ gmul a3 14]

def mixColumns (s : List Nat) : List Nat :=
  mixCol (s.getD 0 0) (s.getD 1 0) (s.getD 2 0) (s.getD 3 0) ++
  mixCol (s.getD 4 0) (s.getD 5 0) (s.getD 6 0) (s.getD 7 0) ++
  mixCol (s.getD 8 0) (s.getD 9 0) (s.getD 10 0) (s.getD 11 0) ++
  mixCol (s.getD 12 0) (s.getD 13 0) (s.getD 14 0) (s.getD 15 0)

def invMixColumns (s : List Nat) : List Nat :=
  invMixCol (s.getD 0 0) (s.getD 1 0) (s.getD 2 0) (s.getD 3 0) ++
  invMixCol (s.getD 4 0) (s.getD 5 0) (s.getD 6 0) (s.getD 7 0) ++
  invMixCol (s.getD 8 0) (s.getD 9 0) (s.getD 10 0) (s.getD 11 0) ++
  invMixCol (s.getD 12 0) (s.getD 13 0) (s.getD 14 0) (s.getD 15 0)

def aesRound (w : List (List Nat)) (r : Nat) (s : List Nat) : List Nat :=
  addRoundKey (mixColumns (shiftRows (subBytes s))) (roundKey w r)

def aesInvRound (w : List (List Nat)) (r : Nat) (s : List Nat) : List Nat :=
  invMixColumns (addRoundKey (invSubBytes (invShiftRows s)) (roundKey w r))

/-- AES-128 single-block encryption (ECB on one 16-byte block). -/
def aesEncryptBlock (key block : List Nat) : List Nat :=
  let w := expandKey key
  let s0 := addRoundKey block (roundKey w 0)
  let s9 := (List.range 9).foldl (fun s i => aesRound w (i + 1) s) s0
  addRoundKey (shiftRows (subBytes s9)) (roundKey w 10)

/-- AES-128 single-block decryption. -/
def aesDecryptBlock (key block : List Nat) : List Nat :=
  let w := expandKey key
  let s0 := addRoundKey block (roundKey w 10)
  let s1 := (List.range 9).foldl (fun s i => aesInvRound w (9 - i) s) s0
  addRoundKey (invSubBytes (invShiftRows s1)) (roundKey w 0)

/-! ## gan_mpy.py — key derivation and packet framing

`ucryptolib.aes(key, 2, iv)` is AES-128 in CBC mode freshly initialised
with `iv`; the code only ever feeds it a single 16-byte block per
construction, so one `encrypt` call is `aesEncryptBlock key (block ⊕ iv)`
and one `decrypt` call is `(aesDecryptBlock key block) ⊕ iv`.  The packet
functions below are parameterised by the single-block maps `E`/`D`
(instantiated with AES where a concrete computation is needed), mirroring
that `_cbc(key, iv)` builds a fresh cipher object each time. -/

def BASE_KEY : List Nat :=
  [0x01, 0x02, 0x42, 0x28, 0x31, 0x91, 0x16, 0x07,
   0x20, 0x05, 0x18, 0x54, 0x42, 0x11, 0x12, 0x53]

def BASE_IV : List Nat :=
  [0x11, 0x03, 0x32, 0x28, 0x21, 0x01, 0x76, 0x27,
   0x20, 0x95, 0x78, 0x14, 0x32, 0x12, 0x02, 0x43]

def xorBytes (a b : List Nat) : List Nat := List.zipWith (· ^^^ ·) a b

/-- One `aes(key,2,iv).encrypt` call on a single 16-byte block. -/
def cbcEncBlock (E : List Nat → List Nat) (iv b : List Nat) : List Nat :=
  E (xorBytes b iv)

/-- One `aes(key,2,iv).decrypt` call on a single 16-byte block. -/
def cbcDecBlock (D : List Nat → List Nat) (iv b : List Nat) : List Nat :=
  xorBytes (D b) iv

/-- Python slice assignment `buf[start:start+len(repl)] = repl`. -/
def setSlice (l : List Nat) (start : Nat) (repl : List Nat) : List Nat :=
  l.take start ++ repl ++ l.drop (start + repl.length)

/-- Python slice read `bytes(buf[start:start+16])`. -/
def slice16 (l : List Nat) (start : Nat) : List Nat := (l.drop start).take 16

/-- `_dec_last_first`: decrypt the trailing 16 bytes (when longer than 16),
then the leading 16 bytes, each with a freshly IV-initialised cipher.
The `try/except` guards in the source cannot fire for inputs of length
≥ 16 (every `decrypt` call receives exactly 16 bytes), so they are not
modelled. -/
def dec_last_first (D : List Nat → List Nat) (iv src : List Nat) : List Nat :=
  let n := src.length
  let buf := if 16 < n then setSlice src (n - 16) (cbcDecBlock D iv (slice16 src (n - 16)))
             else src
  setSlice buf 0 (cbcDecBlock D iv (buf.take 16))

/-- `_dec_first_last`: leading block first, then the trailing block. -/
def dec_first_last (D : List Nat → List Nat) (iv src : List Nat) : List Nat :=
  let n := src.length
  let buf := setSlice src 0 (cbcDecBlock D iv (src.take 16))
  if 16 < n then setSlice buf (n - 16) (cbcDecBlock D iv (slice16 buf (n - 16)))
  else buf

/-- `decrypt_packet` from gan_mpy.py. -/
def decrypt_packet (D : List Nat → List Nat) (iv pkt : List Nat) :
    Option (List Nat) :=
  let n := pkt.length
  if n < 16 then none
  else if pkt ≠ [] ∧ pkt.headD 0 = 0x55 ∧ 2 ≤ n then some pkt
  else
    let d1 := dec_last_first D iv pkt
    if d1 ≠ [] ∧ d1.headD 0 = 0x55 then some d1
    else
      let d2 := dec_first_last D iv pkt
      if d2 ≠ [] ∧ d2.headD 0 = 0x55 then some d2
      else some d1

/-- `encrypt_packet` from gan_mpy.py. -/
def encrypt_packet (E : List Nat → List Nat) (iv data : List Nat) :
    Option (List Nat) :=
  let n := data.length
  if n < 16 then none
  else
    let buf := setSlice data 0 (cbcEncBlock E iv (data.take 16))
    let buf := if 16 < n then
        setSlice buf (n - 16) (cbcEncBlock E iv (slice16 buf (n - 16)))
      else buf
    some buf

/-- Hex digit value after `.upper()` normalisation (`0-9`, `A-F`). -/
def hexVal (c : Char) : Option Nat :=
  if '0' ≤ c ∧ c ≤ '9' then some (c.toNat - '0'.toNat)
  else if 'A' ≤ c ∧ c ≤ 'F' then some (c.toNat - 'A'.toNat + 10)
  else none

/-- `bytes.fromhex` on the cleaned string: consecutive hex-digit pairs.
(CPython additionally skips spaces between pairs; for this caller a space
anywhere in the 12 consumed characters always ends in an exception as
well — fewer than 6 salt bytes get built and `salt[i]` then raises — so
mapping every non-hex character to failure is extensionally faithful.) -/
def bytesFromHex : List Char → Option (List Nat)
  | [] => some []
  | c1 :: c2 :: rest =>
    match hexVal c1, hexVal c2, bytesFromHex rest with
    | some h, some l, some bs => some ((16 * h + l) :: bs)
    | _, _, _ => none
  | [_] => none

/-- `mac_address.replace(':', '').replace('-', '').upper()`. -/
def macCleanOf (mac : List Char) : List Char :=
  (mac.filter (fun c => c ≠ ':' ∧ c ≠ '-')).map Char.toUpper

/-- `derive_key_iv_from_mac` from gan_mpy.py; `none` models the raised
`ValueError` ("Invalid MAC/UUID format"). -/
def derive_key_iv_from_mac (mac : List Char) : Option (List Nat × List Nat) :=
  let macClean := macCleanOf mac
  let saltO : Option (List Nat) :=
    if macClean.length = 12 then bytesFromHex macClean
    else if macClean.length = 32 then bytesFromHex (macClean.take 12)
    else none
  match saltO with
  | none => none
  | some salt =>
    some ((List.range 16).map (fun i =>
            if i < 6 then (BASE_KEY.getD i 0 + salt.getD i 0) % 0xFF
            else BASE_KEY.getD i 0),
          (List.range 16).map (fun i =>
            if i < 6 then (BASE_IV.getD i 0 + salt.getD i 0) % 0xFF
            else BASE_IV.getD i 0))

/-! ## main.py — bit extraction and facelets decoding -/

/-- The 8 bits of one byte, most significant first (`bin(byte)` padded to
8 characters; frame bytes are always < 256). -/
def byteBits (b : Nat) : List Bool :=
  [b.testBit 7, b.testBit 6, b.testBit 5, b.testBit 4,
   b.testBit 3, b.testBit 2, b.testBit 1, b.testBit 0]

/-- `_bits_from_bytes`: MSB-first bit string of a byte string. -/
def bits_from_bytes (data : List Nat) : List Bool := (data.map byteBits).flatten

/-- `_bits_from_bytes_revbits`: per-byte bit order reversed. -/
def bits_from_bytes_revbits (data : List Nat) : List Bool :=
  (data.map (fun b => (byteBits b).reverse)).flatten

/-- `int(bits, 2)` on a bit-string slice. -/
def natOfBits (bs : List Bool) : Nat :=
  bs.foldl (fun a b => 2 * a + (if b then 1 else 0)) 0

/-- `get_bits`: extract `num` bits starting at `start`; `-1` signals an
out-of-range read, as in the source. -/
def get_bits (bits : List Bool) (start num : Nat) : Int :=
  if num = 0 then 0
  else if bits.length < start + num then -1
  else Int.ofNat (natOfBits ((bits.drop start).take num))

/-- `_swap_nibbles_bytes` on one byte. -/
def swapNibbles (b : Nat) : Nat := ((b &&& 0x0F) <<< 4) ||| ((b &&& 0xF0) >>> 4)

/-- `_rotl1_per_byte` on one byte. -/
def rotl1Byte (b : Nat) : Nat := ((b <<< 1) &&& 0xFF) ||| ((b >>> 7) &&& 0x01)

/-- `set(l) == set(range(n))` on Python ints. -/
def setEqRange (l : List Int) (n : Nat) : Bool :=
  ((List.range n).map Int.ofNat).all (fun k => l.contains k) &&
  l.all (fun x => ((List.range n).map Int.ofNat).contains x)

/-- The four extracted-and-completed facelets arrays. -/
structure CubeArrays where
  cp : List Int
  co : List Int
  ep : List Int
  eo : List Int
deriving DecidableEq, Repr

/-- Shared field extraction: first 7 corner / 11 edge fields from `bits`
at the four start offsets, plus the derived last element of each array.
Returns `none` when any `get_bits` read is out of range (`< 0`), exactly
as the per-iteration `if v < 0: return None` checks do. -/
def extractArrays (bits : List Bool) (cpS coS epS eoS : Nat) :
    Option CubeArrays :=
  let cp7 := (List.range 7).map (fun i => get_bits bits (cpS + 3 * i) 3)
  let co7 := (List.range 7).map (fun i => get_bits bits (coS + 2 * i) 2)
  let ep11 := (List.range 11).map (fun i => get_bits bits (epS + 4 * i) 4)
  let eo11 := (List.range 11).map (fun i => get_bits bits (eoS + i) 1)
  if cp7.any (· < 0) ∨ co7.any (· < 0) ∨ ep11.any (· < 0) ∨ eo11.any (· < 0)
  then none
  else some ⟨cp7 ++ [28 - cp7.sum], co7 ++ [(3 - co7.sum % 3) % 3],
             ep11 ++ [66 - ep11.sum], eo11 ++ [(2 - eo11.sum % 2) % 2]⟩

/-- The validity test of `_parse_facelets_arrays_from_bitstr` (its
`min/max` range checks written as `all`-bounds, which is equivalent for
the 8- and 12-element lists at hand): lengths, CP a permutation of 0–7,
CO within 0–2, EP a permutation of 0–11, EO within 0–1. -/
def arraysValid (a : CubeArrays) : Bool :=
  (a.cp.length = 8 && a.cp.all (fun x => decide (0 ≤ x) && decide (x ≤ 7)) &&
     setEqRange a.cp 8) &&
  (a.co.length = 8 && a.co.all (fun x => decide (0 ≤ x) && decide (x ≤ 2))) &&
  (a.ep.length = 12 && a.ep.all (fun x => decide (0 ≤ x) && decide (x ≤ 11)) &&
     setEqRange a.ep 12) &&
  (a.eo.length = 12 && a.eo.all (fun x => decide (0 ≤ x) && decide (x ≤ 1)))

/-- `_parse_facelets_arrays_from_bitstr`. -/
def parse_facelets_arrays_from_bitstr (bits : List Bool) (shift : Int) :
    Option CubeArrays :=
  let cpStart : Int := 40 + shift
  let coStart : Int := 61 + shift
  let epStart : Int := 77 + shift
  let eoStart : Int := 121 + shift
  if cpStart < 0 ∨ coStart < 0 ∨ epStart < 0 ∨ eoStart < 0 then none
  else if (bits.length : Int) < eoStart + 11 then none
  else
    match extractArrays bits cpStart.toNat coStart.toNat epStart.toNat
            eoStart.toNat with
    | none => none
    | some a => if arraysValid a then some a else none

/-- `_parse_facelets_canonical` (headerless, backend offsets shifted −16). -/
def parse_facelets_canonical (clear : List Nat) : Option CubeArrays :=
  if clear.length < 17 then none
  else parse_facelets_arrays_from_bitstr (bits_from_bytes clear) (-16)

/-- The validity test used by `_parse_facelets_headered` (no separate
min/max checks there, only lengths and set equality / bounds). -/
def arraysValidHeadered (a : CubeArrays) : Bool :=
  (a.cp.length = 8 && setEqRange a.cp 8) &&
  (a.co.length = 8 && a.co.all (fun x => decide (0 ≤ x) && decide (x ≤ 2))) &&
  (a.ep.length = 12 && setEqRange a.ep 12) &&
  (a.eo.length = 12 && a.eo.all (fun x => decide (0 ≤ x) && decide (x ≤ 1)))

/-- `_parse_facelets_headered`: fixed offsets CP@40, CO@61, EP@77, EO@121
on the full headered frame. -/
def parse_facelets_headered (clear : List Nat) : Option CubeArrays :=
  if clear.length < 19 ∨ clear.getD 0 0 ≠ 0x55 ∨ clear.getD 1 0 ≠ 0x02 then none
  else
    match extractArrays (bits_from_bytes clear) 40 61 77 121 with
    | none => none
    | some a => if arraysValidHeadered a then some a else none

/-- The `(label, bit-string)` variants tried by
`_parse_facelets_with_variants`, in source order. -/
def faceletsVariants (clear : List Nat) : List (String × List Bool) :=
  [("norm", bits_from_bytes clear),
   ("rev_bytes", bits_from_bytes clear.reverse),
   ("rev_bits", bits_from_bytes_revbits clear),
   ("rev_bytes+rev_bits", bits_from_bytes_revbits clear.reverse),
   ("swap_nibbles", bits_from_bytes (clear.map swapNibbles)),
   ("rotl1_per_byte", bits_from_bytes (clear.map rotl1Byte)),
   ("rev_all_bits", (bits_from_bytes clear).reverse)]

def baseShifts : List Int := [-48, -40, -32, -24, -16, -8, 0, 8, 16, 24]

def jitters : List Int := [-4, -3, -2, -1, 0, 1, 2, 3, 4]

/-- `_parse_facelets_with_variants`: first validated parse over all
variants and shifts, else the non-validated "default-unaligned" parse at
offsets CP@40/CO@61/EP@77/EO@121 (whose `get_bits` reads are taken as-is,
`-1` included, with no validation). The `(None, …, "parse-failed")`
branch of the source is only reachable through an exception and cannot
occur in this total model. -/
def parse_facelets_with_variants (clear : List Nat) : Option CubeArrays × String :=
  let combos := (faceletsVariants clear).flatMap (fun v =>
    (baseShifts.flatMap (fun b => jitters.map (fun j => b + j))).map
      (fun s => (v.1, v.2, s)))
  match combos.findSome? (fun t =>
      (parse_facelets_arrays_from_bitstr t.2.1 t.2.2).map
        (fun a => (a, t.1 ++ " shift=" ++ toString t.2.2))) with
  | some (a, label) => (some a, label)
  | none =>
    let bd := bits_from_bytes clear
    let cp7 := (List.range 7).map (fun i => get_bits bd (40 + 3 * i) 3)
    let co7 := (List.range 7).map (fun i => get_bits bd (61 + 2 * i) 2)
    let ep11 := (List.range 11).map (fun i => get_bits bd (77 + 4 * i) 4)
    let eo11 := (List.range 11).map (fun i => get_bits bd (121 + i) 1)
    (some ⟨cp7 ++ [28 - cp7.sum], co7 ++ [(3 - co7.sum % 3) % 3],
           ep11 ++ [66 - ep11.sum], eo11 ++ [(2 - eo11.sum % 2) % 2]⟩,
     "default-unaligned")

/-! ## main.py — facelet string conversion and the solved predicate -/

def FACES_ORDER : List Char := ['U', 'R', 'F', 'D', 'L', 'B']

def CORNER_FACELET_MAP : List (List Nat) :=
  [[8, 9, 20], [6, 18, 38], [0, 36, 47], [2, 45, 11],
   [29, 26, 15], [27, 44, 24], [33, 53, 42], [35, 17, 51]]

def EDGE_FACELET_MAP : List (List Nat) :=
  [[5, 10], [7, 19], [3, 37], [1, 46], [32, 16], [28, 25],
   [30, 43], [34, 52], [23, 12], [21, 41], [50, 39], [48, 14]]

def SOLVED_FACELETS : String :=
  "UUUUUUUUURRRRRRRRRFFFFFFFFFDDDDDDDDDLLLLLLLLLBBBBBBBBB"

/-- Python list indexing `l[i]` with its negative-index wrap-around;
`none` models the `IndexError` raised outside `[-len, len)`. -/
def pyIndex {α : Type} (l : List α) (i : Int) : Option α :=
  if 0 ≤ i ∧ i < l.length then l.get? i.toNat
  else if -(l.length : Int) ≤ i ∧ i < 0 then l.get? (i + l.length).toNat
  else none

/-- One corner placement step of `_to_kociemba_facelets` (loop body for
slot `i`, sticker `p`): the only fallible operation is
`_CORNER_FACELET_MAP[cp[i]]`. -/
def placeCorner (cp co : List Int) (f : List Char) (i p : Nat) :
    Option (List Char) :=
  let faceletIdx := (CORNER_FACELET_MAP.getD i []).getD
      (((p : Int) + co.getD i 0) % 3).toNat 0
  match pyIndex CORNER_FACELET_MAP (cp.getD i 0) with
  | none => none
  | some row => some (f.set faceletIdx (FACES_ORDER.getD (row.getD p 0 / 9) 'U'))

/-- One edge placement step of `_to_kociemba_facelets`. -/
def placeEdge (ep eo : List Int) (f : List Char) (i p : Nat) :
    Option (List Char) :=
  let faceletIdx := (EDGE_FACELET_MAP.getD i []).getD
      (((p : Int) + eo.getD i 0) % 2).toNat 0
  match pyIndex EDGE_FACELET_MAP (ep.getD i 0) with
  | none => none
  | some row => some (f.set faceletIdx (FACES_ORDER.getD (row.getD p 0 / 9) 'U'))

/-- `_to_kociemba_facelets`; `none` models the caught exception. -/
def to_kociemba_facelets (a : CubeArrays) : Option String :=
  let init := (List.range 54).map (fun i => FACES_ORDER.getD (i / 9) 'U')
  let cornerSteps := (List.range 8).flatMap (fun i =>
    (List.range 3).map (fun p => (i, p)))
  let edgeSteps := (List.range 12).flatMap (fun i =>
    (List.range 2).map (fun p => (i, p)))
  let afterCorners := cornerSteps.foldl
    (fun acc s => acc.bind (fun f => placeCorner a.cp a.co f s.1 s.2))
    (some init)
  let afterEdges := edgeSteps.foldl
    (fun acc s => acc.bind (fun f => placeEdge a.ep a.eo f s.1 s.2))
    afterCorners
  afterEdges.map (fun f => String.mk f)

/-- `_is_solved_facelets` (per-step comments map the source lines):
headered parse when the 0x55 0x02 facelets header is present, then the
canonical headerless parse, then the variant search with its
default-unaligned fallback, then facelet-string comparison with the
canonical solved string. The debug print / exception tail returns
`False`, which only the stringifier failure can reach here. -/
def is_solved_facelets (clear : List Nat) : Bool :=
  let headered : Bool :=
    19 ≤ clear.length && clear.getD 0 0 = 0x55 && clear.getD 1 0 = 0x02
  let parsed0 := if headered then parse_facelets_headered clear else none
  let body := if headered then clear.drop 2 else clear
  let parsed := if parsed0.isNone && 17 ≤ body.length
                then parse_facelets_canonical body else parsed0
  let arrs : Option CubeArrays :=
    match parsed with
    | some a => some a
    | none => (parse_facelets_with_variants
                 (if 17 ≤ body.length then body else clear)).1
  match arrs with
  | none => false
  | some a =>
    if a.cp.isEmpty then false
    else
      match to_kociemba_facelets a with
      | none => false
      | some facelets => facelets = SOLVED_FACELETS

/-! ## main.py — move-variant frame parsing -/

def MOVE_TABLE : List String :=
  ["B", "B\x27", "F", "F\x27", "U", "U\x27",
   "D", "D\x27", "R", "R\x27", "L", "L\x27"]

/-- `_parse_move_variant02`: 16-byte 0x55 0x02 move frames, with the
reverse-tail fallback (`clear[0:2] + clear[:1:-1]`) tried once when the
move code at offset 5 exceeds 11. Returns the move string and the
little-endian serial from bytes 2–3 of the (possibly reversed) frame. -/
def parse_move_variant02 (clear : List Nat) : Option (String × Nat) :=
  if clear.length < 16 ∨ clear.getD 0 0 ≠ 0x55 ∨ clear.getD 1 0 ≠ 0x02 then none
  else
    let mb := clear.getD 5 0
    let frame := if 0x0B < mb then clear.take 2 ++ (clear.drop 2).reverse
                 else clear
    let mb := frame.getD 5 0
    if 0x0B < mb then none
    else some (MOVE_TABLE.getD mb "",
               frame.getD 2 0 + 256 * frame.getD 3 0)

/-! ## main.py — command dispatcher retry scheduling and session reset

The globals touched by the facelets-retry section of `_poll_tick`
(lines 613–642) and by the `_IRQ_PERIPHERAL_DISCONNECT` branch of `_irq`
(lines 1442–1471) are gathered into explicit state records; the handlers
become pure state transformers.  MicroPython tick arithmetic
(`time.ticks_ms` wraps at `TICKS_PERIOD = 2^30` on rp2) is modelled
exactly. -/

def TICKS_PERIOD : Nat := 2 ^ 30

/-- `time.ticks_add`. -/
def ticksAdd (a d : Nat) : Nat := (a + d) % TICKS_PERIOD

/-- `time.ticks_diff`: signed wraparound-safe difference in
`[-2^29, 2^29)`. -/
def ticksDiff (a b : Nat) : Int :=
  ((a : Int) - (b : Int) + 2 ^ 29) % (TICKS_PERIOD : Int) - 2 ^ 29

/-- Outcome of one `ble.gattc_write` attempt inside
`_send_command_payload`: success, failure raising EALREADY (transport
busy), or any other failure. -/
inductive WriteOutcome
  | success
  | busyFail
  | otherFail
deriving DecidableEq, Repr

/-- The dispatcher-relevant globals of main.py. -/
structure DispatchState where
  conn : Option Nat
  cmdHandle : Option Nat
  faceletsRetryCount : Nat
  faceletsRetryNextMs : Nat
  bleNextOkMs : Nat
  lastWriteEalready : Bool
deriving DecidableEq, Repr

/-- The facelets-retry section of `_poll_tick` for one tick at time
`now`, with the write attempt's outcome `o` supplied as an oracle:
guarded by connection/handle presence and a positive retry budget; a due
attempt first respects the BLE cooldown window; `_send_command_payload`
returns `ok = (o = success)` and sets `_last_write_ealready` on EALREADY;
a failed attempt with the EALREADY flag reschedules after 40 ms without
consuming a retry, any other outcome consumes one and reschedules after
200 ms; the flag is cleared at the end of the attempt. -/
def pollTickRetryStep (st : DispatchState) (now : Nat) (o : WriteOutcome) :
    DispatchState :=
  if st.conn.isSome ∧ st.cmdHandle.isSome ∧ 0 < st.faceletsRetryCount then
    if 0 ≤ ticksDiff now st.faceletsRetryNextMs then
      if st.bleNextOkMs ≠ 0 ∧ ticksDiff now st.bleNextOkMs < 0 then
        { st with faceletsRetryNextMs := st.bleNextOkMs }
      else if o ≠ WriteOutcome.success ∧
          (st.lastWriteEalready = true ∨ o = WriteOutcome.busyFail) then
        { st with faceletsRetryNextMs := ticksAdd now 40,
                  lastWriteEalready := false }
      else
        { st with faceletsRetryCount := st.faceletsRetryCount - 1,
                  faceletsRetryNextMs := ticksAdd now 200,
                  lastWriteEalready := false }
    else st
  else st

/-- `n` consecutive due ticks whose write attempts all fail non-busy
(each next tick at the rescheduled time `now + 200`). -/
def exhaustRun (st : DispatchState) (now : Nat) : Nat → DispatchState
  | 0 => st
  | n + 1 => exhaustRun (pollTickRetryStep st now WriteOutcome.otherFail)
      (ticksAdd now 200) n

/-- The per-session globals reset by the connect/disconnect `_irq`
branches, including the two queues those branches do not touch. -/
structure SessionState where
  conn : Option Nat
  connecting : Bool
  rxBuf : List Nat
  cmdHandle : Option Nat
  stateHandle : Option Nat
  didSendInitialFacelets : Bool
  stateCccdEnabled : Bool
  initialFaceletsDeadlineMs : Nat
  svcRanges : List (Nat × Nat)
  charQueue : List (Nat × Nat)
  notifyHandles : List Nat
  charDiscoverInProgress : Bool
  bleNextOkMs : Nat
  faceletsRetryCount : Nat
  faceletsRetryNextMs : Nat
  faceletsRateNextMs : Nat
  cccdQueue : List Nat
  notifyQueue : List (Nat × Nat × List Nat)
deriving DecidableEq, Repr

/-- The `_IRQ_PERIPHERAL_DISCONNECT` branch of `_irq` (state mutation
only; printing, UI and scan restart are external effects).  Exactly the
globals assigned by the source branch are reset. -/
def onPeripheralDisconnect (st : SessionState) (connHandle : Nat) :
    SessionState :=
  if st.conn = some connHandle then
    { st with
      conn := none, connecting := false, rxBuf := [],
      cmdHandle := none, stateHandle := none,
      didSendInitialFacelets := false, stateCccdEnabled := false,
      initialFaceletsDeadlineMs := 0,
      svcRanges := [], charQueue := [], notifyHandles := [],
      charDiscoverInProgress := false, bleNextOkMs := 0,
      faceletsRetryCount := 0, faceletsRetryNextMs := 0,
      faceletsRateNextMs := 0 }
  else st

/-! ## Claim-level predicates (spec wording, for comparison with the
code-side checks) -/

def rangeInt (n : Nat) : List Int := (List.range n).map Int.ofNat

/-- The spec's validity condition on the completed facelets arrays:
corner permutation a permutation of 0–7, corner orientations in 0–2,
edge permutation a permutation of 0–11, edge orientations in 0–1. -/
def ClaimValidArrays (a : CubeArrays) : Prop :=
  a.cp.Perm (rangeInt 8) ∧ (∀ x ∈ a.co, 0 ≤ x ∧ x ≤ 2) ∧
  a.ep.Perm (rangeInt 12) ∧ (∀ x ∈ a.eo, 0 ≤ x ∧ x ≤ 1)

instance : DecidablePred ClaimValidArrays := fun a => by
  unfold ClaimValidArrays; infer_instance

/-! # Theorems -/

/-- FIPS-197 appendix C.1 test vector, validating the AES-128 embedding
(encryption direction). -/
theorem aes_fips197_encrypt_vector :
    aesEncryptBlock
      [0, 1, 2, 3, 4, 5, 6, 7, 8, 9, 10, 11, 12, 13, 14, 15]
      [0x00, 0x11, 0x22, 0x33, 0x44, 0x55, 0x66, 0x77,
       0x88, 0x99, 0xaa, 0xbb, 0xcc, 0xdd, 0xee, 0xff] =
    [0x69, 0xc4, 0xe0, 0xd8, 0x6a, 0x7b, 0x04, 0x30,
     0xd8, 0xcd, 0xb7, 0x80, 0x70, 0xb4, 0xc5, 0x5a] := by decide

/-- FIPS-197 appendix C.1 test vector, decryption direction. -/
theorem aes_fips197_decrypt_vector :
    aesDecryptBlock
      [0, 1, 2, 3, 4, 5, 6, 7, 8, 9, 10, 11, 12, 13, 14, 15]
      [0x69, 0xc4, 0xe0, 0xd8, 0x6a, 0x7b, 0x04, 0x30,
       0xd8, 0xcd, 0xb7, 0x80, 0x70, 0xb4, 0xc5, 0x5a] =
    [0x00, 0x11, 0x22, 0x33, 0x44, 0x55, 0x66, 0x77,
     0x88, 0x99, 0xaa, 0xbb, 0xcc, 0xdd, 0xee, 0xff] := by decide

/-- C10: a packet of length ≥ 16 whose first byte is already the 0x55
marker is returned unchanged by `decrypt_packet`.  The statement is
universally quantified over the block-decryption map `D`, so the result
cannot depend on any block decryption being performed; the two
decryption orderings are reachable in `decrypt_packet` only under the
complementary guard `headD ≠ 0x55`. -/
theorem c10_passthrough (D : List Nat → List Nat) (iv pkt : List Nat)
    (hlen : 16 ≤ pkt.length) (hhead : pkt.headD 0 = 0x55) :
    decrypt_packet D iv pkt = some pkt := by
  have hne : pkt ≠ [] := by
    intro h
    rw [h] at hlen
    simp at hlen
  unfold decrypt_packet
  rw [if_neg (by omega), if_pos ⟨hne, hhead, by omega⟩]

/-- Witness for C10 at a concrete 16-byte packet. -/
theorem c10_passthrough_witness :
    decrypt_packet List.reverse [] (0x55 :: List.replicate 15 0) =
      some (0x55 :: List.replicate 15 0) :=
  c10_passthrough List.reverse [] _ (by decide) (by decide)

/-- C4: a 16-byte 0x55 0x02 frame parses as follows — a move code ≤ 11
at offset 5 yields the corresponding alphabet entry and the
little-endian serial from bytes 2–3; a code > 11 causes one retry on the
tail-reversed frame; if the reversed frame's code still exceeds 11 the
frame is rejected; and code 11 is the last alphabet entry L´. -/
theorem c4_move_variant02 (clear : List Nat) (h16 : clear.length = 16)
    (h0 : clear.getD 0 0 = 0x55) (h1 : clear.getD 1 0 = 0x02) :
    (clear.getD 5 0 ≤ 11 →
      parse_move_variant02 clear =
        some (MOVE_TABLE.getD (clear.getD 5 0) "",
              clear.getD 2 0 + 256 * clear.getD 3 0)) ∧
    (11 < clear.getD 5 0 →
      ((clear.take 2 ++ (clear.drop 2).reverse).getD 5 0 ≤ 11 →
        parse_move_variant02 clear =
          some (MOVE_TABLE.getD
                  ((clear.take 2 ++ (clear.drop 2).reverse).getD 5 0) "",
                (clear.take 2 ++ (clear.drop 2).reverse).getD 2 0 +
                  256 * (clear.take 2 ++ (clear.drop 2).reverse).getD 3 0)) ∧
      (11 < (clear.take 2 ++ (clear.drop 2).reverse).getD 5 0 →
        parse_move_variant02 clear = none)) ∧
    MOVE_TABLE.getD 11 "" = "L\x27" := by
  have hcond : ¬ (clear.length < 16 ∨ clear.getD 0 0 ≠ 0x55 ∨
      clear.getD 1 0 ≠ 0x02) := by
    push_neg
    exact ⟨by omega, h0, h1⟩
  unfold parse_move_variant02
  rw [if_neg hcond]
  dsimp only
  refine ⟨?_, ?_, by decide⟩
  · intro h
    rw [if_neg (by omega : ¬ 0x0B < clear.getD 5 0), if_neg (by omega)]
  · intro h
    constructor
    · intro h2
      rw [if_pos (by omega : 0x0B < clear.getD 5 0), if_neg (by omega)]
    · intro h2
      rw [if_pos (by omega : 0x0B < clear.getD 5 0), if_pos (by omega)]

/-- Witness for C4 at a concrete frame with move code 11 (and serial
0x1234): the last alphabet entry L´ is produced. -/
theorem c4_move_variant02_witness :
    parse_move_variant02
        [0x55, 0x02, 0x34, 0x12, 0, 11, 0, 0, 0, 0, 0, 0, 0, 0, 0, 0] =
      some ("L\x27", 0x1234) :=
  (c4_move_variant02 _ (by decide) (by decide) (by decide)).1 (by decide)

/-- C7 counterexample: a disconnect arriving while the CCCD-enable queue
and the notification queue are non-empty leaves both queues non-empty —
the disconnect branch of `_irq` never clears `_cccd_queue` or
`_notify_queue`, so the claim that after the handler all queues are
empty is false. -/
theorem c7_counterexample :
    (onPeripheralDisconnect
        ⟨some 1, false, [], some 7, some 9, false, false, 0, [], [], [],
         false, 0, 2, 0, 0, [42], [(1, 9, [0x55])]⟩ 1).cccdQueue ≠ [] ∧
    (onPeripheralDisconnect
        ⟨some 1, false, [], some 7, some 9, false, false, 0, [], [], [],
         false, 0, 2, 0, 0, [42], [(1, 9, [0x55])]⟩ 1).notifyQueue ≠ [] := by
  decide

/-- C7 (amended): a disconnect event for the live connection resets the
retry counter and schedule to zero and clears the discovery queues
(service ranges, characteristic-discovery queue, notify-handle list),
but it leaves the CCCD-enable queue and the notification queue exactly
as they were. -/
theorem c7_disconnect_reset (st : SessionState) (ch : Nat)
    (h : st.conn = some ch) :
    (onPeripheralDisconnect st ch).conn = none ∧
    (onPeripheralDisconnect st ch).faceletsRetryCount = 0 ∧
    (onPeripheralDisconnect st ch).faceletsRetryNextMs = 0 ∧
    (onPeripheralDisconnect st ch).faceletsRateNextMs = 0 ∧
    (onPeripheralDisconnect st ch).svcRanges = [] ∧
    (onPeripheralDisconnect st ch).charQueue = [] ∧
    (onPeripheralDisconnect st ch).notifyHandles = [] ∧
    (onPeripheralDisconnect st ch).cccdQueue = st.cccdQueue ∧
    (onPeripheralDisconnect st ch).notifyQueue = st.notifyQueue := by
  unfold onPeripheralDisconnect
  rw [if_pos h]
  exact ⟨rfl, rfl, rfl, rfl, rfl, rfl, rfl, rfl, rfl⟩

/-- Witness for C7 (amended) at a concrete session state. -/
theorem c7_disconnect_reset_witness :
    (onPeripheralDisconnect
        ⟨some 3, true, [1], some 7, some 9, true, true, 5, [(1, 4)],
         [(5, 8)], [6], true, 9, 2, 7, 7, [42], [(3, 9, [0x55])]⟩ 3).conn =
      none ∧
    (onPeripheralDisconnect
        ⟨some 3, true, [1], some 7, some 9, true, true, 5, [(1, 4)],
         [(5, 8)], [6], true, 9, 2, 7, 7, [42], [(3, 9, [0x55])]⟩
        3).faceletsRetryCount = 0 ∧
    (onPeripheralDisconnect
        ⟨some 3, true, [1], some 7, some 9, true, true, 5, [(1, 4)],
         [(5, 8)], [6], true, 9, 2, 7, 7, [42], [(3, 9, [0x55])]⟩
        3).faceletsRetryNextMs = 0 ∧
    (onPeripheralDisconnect
        ⟨some 3, true, [1], some 7, some 9, true, true, 5, [(1, 4)],
         [(5, 8)], [6], true, 9, 2, 7, 7, [42], [(3, 9, [0x55])]⟩
        3).faceletsRateNextMs = 0 ∧
    (onPeripheralDisconnect
        ⟨some 3, true, [1], some 7, some 9, true, true, 5, [(1, 4)],
         [(5, 8)], [6], true, 9, 2, 7, 7, [42], [(3, 9, [0x55])]⟩
        3).svcRanges = [] ∧
    (onPeripheralDisconnect
        ⟨some 3, true, [1], some 7, some 9, true, true, 5, [(1, 4)],
         [(5, 8)], [6], true, 9, 2, 7, 7, [42], [(3, 9, [0x55])]⟩
        3).charQueue = [] ∧
    (onPeripheralDisconnect
        ⟨some 3, true, [1], some 7, some 9, true, true, 5, [(1, 4)],
         [(5, 8)], [6], true, 9, 2, 7, 7, [42], [(3, 9, [0x55])]⟩
        3).notifyHandles = [] ∧
    (onPeripheralDisconnect
        ⟨some 3, true, [1], some 7, some 9, true, true, 5, [(1, 4)],
         [(5, 8)], [6], true, 9, 2, 7, 7, [42], [(3, 9, [0x55])]⟩
        3).cccdQueue =
      (⟨some 3, true, [1], some 7, some 9, true, true, 5, [(1, 4)],
         [(5, 8)], [6], true, 9, 2, 7, 7, [42], [(3, 9, [0x55])]⟩ :
        SessionState).cccdQueue ∧
    (onPeripheralDisconnect
        ⟨some 3, true, [1], some 7, some 9, true, true, 5, [(1, 4)],
         [(5, 8)], [6], true, 9, 2, 7, 7, [42], [(3, 9, [0x55])]⟩
        3).notifyQueue =
      (⟨some 3, true, [1], some 7, some 9, true, true, 5, [(1, 4)],
         [(5, 8)], [6], true, 9, 2, 7, 7, [42], [(3, 9, [0x55])]⟩ :
        SessionState).notifyQueue :=
  c7_disconnect_reset _ 3 (by decide)

theorem ticksDiff_self (a : Nat) : ticksDiff a a = 0 := by
  simp only [ticksDiff, TICKS_PERIOD]
  omega

/-- A due attempt whose write does not raise EALREADY (success or other
failure) consumes one retry and reschedules 200 ms out. -/
theorem pollTick_nonbusy (st : DispatchState) (now : Nat) (o : WriteOutcome)
    (hconn : st.conn.isSome) (hcmd : st.cmdHandle.isSome)
    (hcount : 0 < st.faceletsRetryCount) (hflag : st.lastWriteEalready = false)
    (hble : st.bleNextOkMs = 0)
    (hdue : 0 ≤ ticksDiff now st.faceletsRetryNextMs)
    (ho : o ≠ WriteOutcome.busyFail) :
    pollTickRetryStep st now o =
      { st with faceletsRetryCount := st.faceletsRetryCount - 1,
                faceletsRetryNextMs := ticksAdd now 200,
                lastWriteEalready := false } := by
  unfold pollTickRetryStep
  rw [if_pos ⟨hconn, hcmd, hcount⟩, if_pos hdue,
      if_neg (by rintro ⟨h, -⟩; exact h hble),
      if_neg (by rintro ⟨-, h | h⟩ <;> simp_all)]

/-- A due attempt whose write raises EALREADY (transport busy)
reschedules only 40 ms out and does not consume a retry. -/
theorem pollTick_busy (st : DispatchState) (now : Nat)
    (hconn : st.conn.isSome) (hcmd : st.cmdHandle.isSome)
    (hcount : 0 < st.faceletsRetryCount)
    (hble : st.bleNextOkMs = 0)
    (hdue : 0 ≤ ticksDiff now st.faceletsRetryNextMs) :
    pollTickRetryStep st now WriteOutcome.busyFail =
      { st with faceletsRetryNextMs := ticksAdd now 40,
                lastWriteEalready := false } := by
  unfold pollTickRetryStep
  rw [if_pos ⟨hconn, hcmd, hcount⟩, if_pos hdue,
      if_neg (by rintro ⟨h, -⟩; exact h hble),
      if_pos ⟨by intro h; exact WriteOutcome.noConfusion h, Or.inr rfl⟩]

/-- With the retry budget at zero, a tick makes no attempt and leaves
the dispatcher state untouched. -/
theorem pollTick_zeroCount (st : DispatchState) (now : Nat) (o : WriteOutcome)
    (h : st.faceletsRetryCount = 0) : pollTickRetryStep st now o = st := by
  unfold pollTickRetryStep
  rw [if_neg (by rintro ⟨-, -, hc⟩; omega)]

/-- Draining the whole retry budget through due, non-busy-failing
attempts leaves the budget at zero. -/
theorem exhaustRun_drains : ∀ (n : Nat) (st : DispatchState) (now : Nat),
    st.conn.isSome → st.cmdHandle.isSome → st.lastWriteEalready = false →
    st.bleNextOkMs = 0 → st.faceletsRetryCount = n →
    0 ≤ ticksDiff now st.faceletsRetryNextMs →
    (exhaustRun st now n).faceletsRetryCount = 0
  | 0, st, now, _, _, _, _, hcount, _ => by
      simpa [exhaustRun] using hcount
  | n + 1, st, now, hconn, hcmd, hflag, hble, hcount, hdue => by
      have hstep := pollTick_nonbusy st now WriteOutcome.otherFail hconn hcmd
        (by omega) hflag hble hdue (by intro h; exact WriteOutcome.noConfusion h)
      show (exhaustRun (pollTickRetryStep st now WriteOutcome.otherFail)
        (ticksAdd now 200) n).faceletsRetryCount = 0
      rw [hstep]
      exact exhaustRun_drains n _ (ticksAdd now 200) hconn hcmd rfl hble
        (by simp [hcount]) (by rw [show ({ st with
            faceletsRetryCount := st.faceletsRetryCount - 1,
            faceletsRetryNextMs := ticksAdd now 200,
            lastWriteEalready := false } : DispatchState).faceletsRetryNextMs =
          ticksAdd now 200 from rfl, ticksDiff_self])

/-- C6: for a due facelets command attempt (connection and command
handle present, EALREADY flag clear, no BLE cooldown): a transport-busy
failure reschedules at the shorter 40 ms (< 200 ms) interval without
consuming a retry; any non-busy outcome consumes one retry and
reschedules at 200 ms; and a command whose attempts all fail non-busy
has its budget drained to zero by that many due ticks, after which every
further tick leaves the state unchanged — the command is never
re-attempted. -/
theorem c6_retry_dispatch (st : DispatchState) (now : Nat) (o : WriteOutcome)
    (hconn : st.conn.isSome) (hcmd : st.cmdHandle.isSome)
    (hflag : st.lastWriteEalready = false) (hble : st.bleNextOkMs = 0)
    (hdue : 0 ≤ ticksDiff now st.faceletsRetryNextMs) :
    (0 < st.faceletsRetryCount → o = WriteOutcome.busyFail →
      pollTickRetryStep st now o =
        { st with faceletsRetryNextMs := ticksAdd now 40,
                  lastWriteEalready := false } ∧ (40 : Nat) < 200) ∧
    (0 < st.faceletsRetryCount → o ≠ WriteOutcome.busyFail →
      pollTickRetryStep st now o =
        { st with faceletsRetryCount := st.faceletsRetryCount - 1,
                  faceletsRetryNextMs := ticksAdd now 200,
                  lastWriteEalready := false }) ∧
    (exhaustRun st now st.faceletsRetryCount).faceletsRetryCount = 0 ∧
    (∀ now2 o2,
      pollTickRetryStep (exhaustRun st now st.faceletsRetryCount) now2 o2 =
        exhaustRun st now st.faceletsRetryCount) := by
  have hdrain := exhaustRun_drains st.faceletsRetryCount st now hconn hcmd
    hflag hble rfl hdue
  refine ⟨?_, ?_, hdrain, ?_⟩
  · intro hcount ho
    subst ho
    exact ⟨pollTick_busy st now hconn hcmd hcount hble hdue, by omega⟩
  · intro hcount ho
    exact pollTick_nonbusy st now o hconn hcmd hcount hflag hble hdue ho
  · intro now2 o2
    exact pollTick_zeroCount _ now2 o2 hdrain

/-- Witness for C6 at a concrete dispatcher state with a budget of 2
retries. -/
theorem c6_retry_dispatch_witness :
    (0 < (⟨some 1, some 7, 2, 0, 0, false⟩ : DispatchState).faceletsRetryCount →
      WriteOutcome.otherFail = WriteOutcome.busyFail →
      pollTickRetryStep ⟨some 1, some 7, 2, 0, 0, false⟩ 0
          WriteOutcome.otherFail =
        { (⟨some 1, some 7, 2, 0, 0, false⟩ : DispatchState) with
            faceletsRetryNextMs := ticksAdd 0 40,
            lastWriteEalready := false } ∧ (40 : Nat) < 200) ∧
    (0 < (⟨some 1, some 7, 2, 0, 0, false⟩ : DispatchState).faceletsRetryCount →
      WriteOutcome.otherFail ≠ WriteOutcome.busyFail →
      pollTickRetryStep ⟨some 1, some 7, 2, 0, 0, false⟩ 0
          WriteOutcome.otherFail =
        { (⟨some 1, some 7, 2, 0, 0, false⟩ : DispatchState) with
            faceletsRetryCount :=
              (⟨some 1, some 7, 2, 0, 0, false⟩ : DispatchState).faceletsRetryCount - 1,
            faceletsRetryNextMs := ticksAdd 0 200,
            lastWriteEalready := false }) ∧
    (exhaustRun ⟨some 1, some 7, 2, 0, 0, false⟩ 0
        (⟨some 1, some 7, 2, 0, 0, false⟩ : DispatchState).faceletsRetryCount).faceletsRetryCount = 0 ∧
    (∀ now2 o2,
      pollTickRetryStep
          (exhaustRun ⟨some 1, some 7, 2, 0, 0, false⟩ 0
            (⟨some 1, some 7, 2, 0, 0, false⟩ : DispatchState).faceletsRetryCount)
          now2 o2 =
        exhaustRun ⟨some 1, some 7, 2, 0, 0, false⟩ 0
          (⟨some 1, some 7, 2, 0, 0, false⟩ : DispatchState).faceletsRetryCount) :=
  c6_retry_dispatch ⟨some 1, some 7, 2, 0, 0, false⟩ 0 WriteOutcome.otherFail
    (by decide) (by decide) (by decide) (by decide) (by decide)

theorem range_sixteen : List.range 16 =
    [0, 1, 2, 3, 4, 5, 6, 7, 8, 9, 10, 11, 12, 13, 14, 15] := by decide

/-- C5: an address that cleans up to 12 characters, or to 32 characters
whose first 12 parse as hex (in particular any 32-hex-character
identifier), yields a key and IV whose first 6 bytes are the base bytes
plus the corresponding salt byte modulo 255 and whose remaining 10
bytes are the unchanged base constants. -/
theorem c5_derive_key_iv (mac : List Char) (salt : List Nat)
    (hlen : (macCleanOf mac).length = 12 ∨ (macCleanOf mac).length = 32)
    (hsalt : bytesFromHex ((macCleanOf mac).take 12) = some salt) :
    derive_key_iv_from_mac mac =
      some ([(BASE_KEY.getD 0 0 + salt.getD 0 0) % 255,
             (BASE_KEY.getD 1 0 + salt.getD 1 0) % 255,
             (BASE_KEY.getD 2 0 + salt.getD 2 0) % 255,
             (BASE_KEY.getD 3 0 + salt.getD 3 0) % 255,
             (BASE_KEY.getD 4 0 + salt.getD 4 0) % 255,
             (BASE_KEY.getD 5 0 + salt.getD 5 0) % 255,
             BASE_KEY.getD 6 0, BASE_KEY.getD 7 0, BASE_KEY.getD 8 0,
             BASE_KEY.getD 9 0, BASE_KEY.getD 10 0, BASE_KEY.getD 11 0,
             BASE_KEY.getD 12 0, BASE_KEY.getD 13 0, BASE_KEY.getD 14 0,
             BASE_KEY.getD 15 0],
            [(BASE_IV.getD 0 0 + salt.getD 0 0) % 255,
             (BASE_IV.getD 1 0 + salt.getD 1 0) % 255,
             (BASE_IV.getD 2 0 + salt.getD 2 0) % 255,
             (BASE_IV.getD 3 0 + salt.getD 3 0) % 255,
             (BASE_IV.getD 4 0 + salt.getD 4 0) % 255,
             (BASE_IV.getD 5 0 + salt.getD 5 0) % 255,
             BASE_IV.getD 6 0, BASE_IV.getD 7 0, BASE_IV.getD 8 0,
             BASE_IV.getD 9 0, BASE_IV.getD 10 0, BASE_IV.getD 11 0,
             BASE_IV.getD 12 0, BASE_IV.getD 13 0, BASE_IV.getD 14 0,
             BASE_IV.getD 15 0]) := by
  unfold derive_key_iv_from_mac
  dsimp only
  have hsome : (if (macCleanOf mac).length = 12 then
      bytesFromHex (macCleanOf mac)
    else if (macCleanOf mac).length = 32 then
      bytesFromHex ((macCleanOf mac).take 12)
    else none) = some salt := by
    rcases hlen with h | h
    · rw [if_pos h]
      rw [← hsalt]
      congr 1
      rw [← h, List.take_length]
    · rw [if_neg (by omega), if_pos h]
      exact hsalt
  rw [hsome]
  dsimp only
  rw [range_sixteen]
  norm_num [List.map]

/-- Witness for C5 at the reference address CF:AA:79:C9:96:9C. -/
theorem c5_derive_key_iv_witness :
    derive_key_iv_from_mac ("CF:AA:79:C9:96:9C".toList) =
      some ([(BASE_KEY.getD 0 0 + ([0xCF, 0xAA, 0x79, 0xC9, 0x96, 0x9C] : List Nat).getD 0 0) % 255,
             (BASE_KEY.getD 1 0 + ([0xCF, 0xAA, 0x79, 0xC9, 0x96, 0x9C] : List Nat).getD 1 0) % 255,
             (BASE_KEY.getD 2 0 + ([0xCF, 0xAA, 0x79, 0xC9, 0x96, 0x9C] : List Nat).getD 2 0) % 255,
             (BASE_KEY.getD 3 0 + ([0xCF, 0xAA, 0x79, 0xC9, 0x96, 0x9C] : List Nat).getD 3 0) % 255,
             (BASE_KEY.getD 4 0 + ([0xCF, 0xAA, 0x79, 0xC9, 0x96, 0x9C] : List Nat).getD 4 0) % 255,
             (BASE_KEY.getD 5 0 + ([0xCF, 0xAA, 0x79, 0xC9, 0x96, 0x9C] : List Nat).getD 5 0) % 255,
             BASE_KEY.getD 6 0, BASE_KEY.getD 7 0, BASE_KEY.getD 8 0,
             BASE_KEY.getD 9 0, BASE_KEY.getD 10 0, BASE_KEY.getD 11 0,
             BASE_KEY.getD 12 0, BASE_KEY.getD 13 0, BASE_KEY.getD 14 0,
             BASE_KEY.getD 15 0],
            [(BASE_IV.getD 0 0 + ([0xCF, 0xAA, 0x79, 0xC9, 0x96, 0x9C] : List Nat).getD 0 0) % 255,
             (BASE_IV.getD 1 0 + ([0xCF, 0xAA, 0x79, 0xC9, 0x96, 0x9C] : List Nat).getD 1 0) % 255,
             (BASE_IV.getD 2 0 + ([0xCF, 0xAA, 0x79, 0xC9, 0x96, 0x9C] : List Nat).getD 2 0) % 255,
             (BASE_IV.getD 3 0 + ([0xCF, 0xAA, 0x79, 0xC9, 0x96, 0x9C] : List Nat).getD 3 0) % 255,
             (BASE_IV.getD 4 0 + ([0xCF, 0xAA, 0x79, 0xC9, 0x96, 0x9C] : List Nat).getD 4 0) % 255,
             (BASE_IV.getD 5 0 + ([0xCF, 0xAA, 0x79, 0xC9, 0x96, 0x9C] : List Nat).getD 5 0) % 255,
             BASE_IV.getD 6 0, BASE_IV.getD 7 0, BASE_IV.getD 8 0,
             BASE_IV.getD 9 0, BASE_IV.getD 10 0, BASE_IV.getD 11 0,
             BASE_IV.getD 12 0, BASE_IV.getD 13 0, BASE_IV.getD 14 0,
             BASE_IV.getD 15 0]) :=
  c5_derive_key_iv _ _ (Or.inl (by decide)) (by decide)

/-- For even-length inputs, pairwise hex parsing succeeds exactly when
every character is a hex digit. -/
theorem bytesFromHex_isSome_iff : ∀ (l : List Char), l.length % 2 = 0 →
    ((bytesFromHex l).isSome ↔ ∀ c ∈ l, (hexVal c).isSome)
  | [], _ => by simp [bytesFromHex]
  | [c], h => by simp at h
  | c1 :: c2 :: rest, h => by
    have ih := bytesFromHex_isSome_iff rest (by
      simp only [List.length_cons] at h
      omega)
    simp only [bytesFromHex]
    cases h1 : hexVal c1 <;> cases h2 : hexVal c2 <;>
      cases h3 : bytesFromHex rest <;> simp_all

/-- C8 counterexample: a 32-character identifier whose last 20
characters are not hexadecimal still derives keys — the code only
consumes the first 12 characters, so "fails exactly on any non-hex
character" is false. -/
theorem c8_counterexample :
    (derive_key_iv_from_mac ("000000000000GGGGGGGGGGGGGGGGGGGG".toList)).isSome = true ∧
    (macCleanOf ("000000000000GGGGGGGGGGGGGGGGGGGG".toList)).length = 32 ∧
    ¬ (∀ c ∈ macCleanOf ("000000000000GGGGGGGGGGGGGGGGGGGG".toList),
        (hexVal c).isSome) := by decide

/-- C8 (amended): `derive_key_iv_from_mac` fails (and produces no keys)
exactly when, after separator removal and upcasing, the identifier is
neither 12 characters of hex nor 32 characters whose *first 12* are hex;
characters beyond the first 12 of a 32-character identifier are
ignored. -/
theorem c8_derive_failure (mac : List Char) :
    derive_key_iv_from_mac mac = none ↔
      ¬ (((macCleanOf mac).length = 12 ∧
            ∀ c ∈ macCleanOf mac, (hexVal c).isSome) ∨
         ((macCleanOf mac).length = 32 ∧
            ∀ c ∈ (macCleanOf mac).take 12, (hexVal c).isSome)) := by
  unfold derive_key_iv_from_mac
  dsimp only
  by_cases h12 : (macCleanOf mac).length = 12
  · rw [if_pos h12]
    have hiff := bytesFromHex_isSome_iff (macCleanOf mac) (by omega)
    cases hbs : bytesFromHex (macCleanOf mac) with
    | none =>
      simp only [hbs, Option.isSome_none, Bool.false_eq_true, false_iff] at hiff
      simp [h12, hiff]
    | some salt =>
      simp only [hbs, Option.isSome_some, true_iff] at hiff
      simp [h12, hiff]
      intro x hx
      exact Option.isSome_iff_ne_none.mp (hiff x hx)
  · rw [if_neg h12]
    by_cases h32 : (macCleanOf mac).length = 32
    · rw [if_pos h32]
      have hiff := bytesFromHex_isSome_iff ((macCleanOf mac).take 12) (by
        simp [List.length_take, h32])
      cases hbs : bytesFromHex ((macCleanOf mac).take 12) with
      | none =>
        simp only [hbs, Option.isSome_none, Bool.false_eq_true, false_iff] at hiff
        simp [h12, h32, hiff]
      | some salt =>
        simp only [hbs, Option.isSome_some, true_iff] at hiff
        simp [h12, h32, hiff]
        intro x hx
        exact Option.isSome_iff_ne_none.mp (hiff x hx)
    · simp [h12, h32]

theorem xorBytes_length (a b : List Nat) :
    (xorBytes a b).length = min a.length b.length :=
  List.length_zipWith _ a b

theorem xorBytes_cancel : ∀ (a b : List Nat), a.length = b.length →
    xorBytes (xorBytes a b) b = a
  | [], [], _ => rfl
  | [], _ :: _, h => by simp at h
  | _ :: _, [], h => by simp at h
  | x :: a, y :: b, h => by
    have ih := xorBytes_cancel a b (by simpa using h)
    simp only [xorBytes, List.zipWith_cons_cons] at ih ⊢
    rw [Nat.xor_cancel_right, ih]

/-- A fresh single-block CBC decrypt inverts a fresh single-block CBC
encrypt whenever the raw block maps are mutually inverse. -/
theorem cbc_block_roundtrip (E D : List Nat → List Nat) (iv b : List Nat)
    (hD : ∀ x, x.length = 16 → D (E x) = x)
    (hiv : iv.length = 16) (hb : b.length = 16) :
    cbcDecBlock D iv (cbcEncBlock E iv b) = b := by
  unfold cbcEncBlock cbcDecBlock
  rw [hD _ (by rw [xorBytes_length, hb, hiv]; rfl)]
  exact xorBytes_cancel b iv (by rw [hb, hiv])

theorem cbcEncBlock_length (E : List Nat → List Nat) (iv b : List Nat)
    (hE : ∀ x, x.length = 16 → (E x).length = 16)
    (hiv : iv.length = 16) (hb : b.length = 16) :
    (cbcEncBlock E iv b).length = 16 := by
  unfold cbcEncBlock
  exact hE _ (by rw [xorBytes_length, hb, hiv]; rfl)

theorem cbcDecBlock_length (D : List Nat → List Nat) (iv b : List Nat)
    (hD : ∀ x, x.length = 16 → (D x).length = 16)
    (hiv : iv.length = 16) (hb : b.length = 16) :
    (cbcDecBlock D iv b).length = 16 := by
  unfold cbcDecBlock
  rw [xorBytes_length, hD _ hb, hiv]
  rfl

theorem take_len_append (a b : List Nat) (n : Nat) (h : a.length = n) :
    (a ++ b).take n = a := by
  rw [← h]
  exact List.take_left a b

theorem drop_len_append (a b : List Nat) (n : Nat) (h : a.length = n) :
    (a ++ b).drop n = b := by
  rw [← h]
  exact List.drop_left a b

theorem setSlice_zero (l r : List Nat) :
    setSlice l 0 r = r ++ l.drop r.length := by
  simp [setSlice]

/-- `setSlice` at position 16 of a `16 ++ rest` split. -/
theorem setSlice_sixteen (a b r : List Nat) (ha : a.length = 16)
    (hb : b.length = 16) (hr : r.length = 16) :
    setSlice (a ++ b) 16 r = a ++ r := by
  unfold setSlice
  rw [hr, take_len_append a b 16 ha,
      List.drop_eq_nil_of_le (by rw [List.length_append]; omega),
      List.append_nil]

/-- `encrypt_packet` on a 16-byte plaintext is one single-block CBC
encryption. -/
theorem encrypt_packet_sixteen (E : List Nat → List Nat) (iv data : List Nat)
    (hE : ∀ x, x.length = 16 → (E x).length = 16)
    (hiv : iv.length = 16) (h : data.length = 16) :
    encrypt_packet E iv data = some (cbcEncBlock E iv data) := by
  unfold encrypt_packet
  dsimp only
  rw [if_neg (by omega)]
  rw [List.take_of_length_le (by omega), setSlice_zero,
      cbcEncBlock_length E iv data hE hiv h,
      List.drop_eq_nil_of_le (by omega), List.append_nil,
      if_neg (by omega)]

/-- `encrypt_packet` on a 32-byte plaintext encrypts the two halves
independently, each with the same IV. -/
theorem encrypt_packet_thirtytwo (E : List Nat → List Nat) (iv data : List Nat)
    (hE : ∀ x, x.length = 16 → (E x).length = 16)
    (hiv : iv.length = 16) (h : data.length = 32) :
    encrypt_packet E iv data =
      some (cbcEncBlock E iv (data.take 16) ++ cbcEncBlock E iv (data.drop 16)) := by
  have hct : (data.take 16).length = 16 := by
    rw [List.length_take]; omega
  have hcd : (data.drop 16).length = 16 := by
    rw [List.length_drop]; omega
  have hr1 : (cbcEncBlock E iv (data.take 16)).length = 16 :=
    cbcEncBlock_length E iv _ hE hiv hct
  have h16 : data.length - 16 = 16 := by omega
  unfold encrypt_packet
  dsimp only
  rw [if_neg (by omega), setSlice_zero, hr1, if_pos (by omega), h16]
  have hslice : slice16 (cbcEncBlock E iv (data.take 16) ++ data.drop 16) 16 =
      data.drop 16 := by
    unfold slice16
    rw [drop_len_append _ _ 16 hr1, List.take_of_length_le (by omega)]
  rw [hslice,
      setSlice_sixteen _ _ _ hr1 hcd
        (cbcEncBlock_length E iv _ hE hiv hcd)]

/-- `_dec_last_first` on a 16-byte input is one single-block CBC
decryption. -/
theorem dec_last_first_sixteen (D : List Nat → List Nat) (iv c : List Nat)
    (hD : ∀ x, x.length = 16 → (D x).length = 16)
    (hiv : iv.length = 16) (h : c.length = 16) :
    dec_last_first D iv c = cbcDecBlock D iv c := by
  unfold dec_last_first
  dsimp only
  rw [if_neg (by omega), List.take_of_length_le (by omega), setSlice_zero,
      cbcDecBlock_length D iv c hD hiv h,
      List.drop_eq_nil_of_le (by omega), List.append_nil]

/-- `_dec_first_last` on a 16-byte input coincides. -/
theorem dec_first_last_sixteen (D : List Nat → List Nat) (iv c : List Nat)
    (hD : ∀ x, x.length = 16 → (D x).length = 16)
    (hiv : iv.length = 16) (h : c.length = 16) :
    dec_first_last D iv c = cbcDecBlock D iv c := by
  unfold dec_first_last
  dsimp only
  rw [List.take_of_length_le (by omega), setSlice_zero,
      cbcDecBlock_length D iv c hD hiv h,
      List.drop_eq_nil_of_le (by omega), List.append_nil,
      if_neg (by omega)]

/-- `_dec_last_first` on a 32-byte input decrypts the two halves as
independent single-block CBC operations, both re-initialised with the
same IV. -/
theorem dec_last_first_thirtytwo (D : List Nat → List Nat) (iv c : List Nat)
    (hD : ∀ x, x.length = 16 → (D x).length = 16)
    (hiv : iv.length = 16) (h : c.length = 32) :
    dec_last_first D iv c =
      cbcDecBlock D iv (c.take 16) ++ cbcDecBlock D iv (c.drop 16) := by
  have hct : (c.take 16).length = 16 := by rw [List.length_take]; omega
  have hcd : (c.drop 16).length = 16 := by rw [List.length_drop]; omega
  have hr2 : (cbcDecBlock D iv (c.drop 16)).length = 16 :=
    cbcDecBlock_length D iv _ hD hiv hcd
  have hr1 : (cbcDecBlock D iv (c.take 16)).length = 16 :=
    cbcDecBlock_length D iv _ hD hiv hct
  have h16 : c.length - 16 = 16 := by omega
  unfold dec_last_first
  dsimp only
  rw [if_pos (by omega), h16]
  have hsl : slice16 c 16 = c.drop 16 := by
    unfold slice16
    rw [List.take_of_length_le (by omega)]
  rw [hsl]
  have hsplit : setSlice c 16 (cbcDecBlock D iv (c.drop 16)) =
      c.take 16 ++ cbcDecBlock D iv (c.drop 16) := by
    calc setSlice c 16 (cbcDecBlock D iv (c.drop 16))
        = setSlice (c.take 16 ++ c.drop 16) 16 (cbcDecBlock D iv (c.drop 16)) := by
          rw [List.take_append_drop]
      _ = c.take 16 ++ cbcDecBlock D iv (c.drop 16) :=
          setSlice_sixteen _ _ _ hct hcd hr2
  rw [hsplit, take_len_append _ _ 16 hct, setSlice_zero, hr1,
      drop_len_append _ _ 16 hct]

/-- `_dec_first_last` on a 32-byte input produces the same result (the
two blocks are disjoint and each is decrypted from the original
ciphertext bytes with a fresh IV). -/
theorem dec_first_last_thirtytwo (D : List Nat → List Nat) (iv c : List Nat)
    (hD : ∀ x, x.length = 16 → (D x).length = 16)
    (hiv : iv.length = 16) (h : c.length = 32) :
    dec_first_last D iv c =
      cbcDecBlock D iv (c.take 16) ++ cbcDecBlock D iv (c.drop 16) := by
  have hct : (c.take 16).length = 16 := by rw [List.length_take]; omega
  have hcd : (c.drop 16).length = 16 := by rw [List.length_drop]; omega
  have hr1 : (cbcDecBlock D iv (c.take 16)).length = 16 :=
    cbcDecBlock_length D iv _ hD hiv hct
  have hr2 : (cbcDecBlock D iv (c.drop 16)).length = 16 :=
    cbcDecBlock_length D iv _ hD hiv hcd
  have h16 : c.length - 16 = 16 := by omega
  unfold dec_first_last
  dsimp only
  rw [setSlice_zero, hr1, if_pos (by omega), h16]
  have hsl : slice16 (cbcDecBlock D iv (c.take 16) ++ c.drop 16) 16 =
      c.drop 16 := by
    unfold slice16
    rw [drop_len_append _ _ 16 hr1, List.take_of_length_le (by omega)]
  rw [hsl, setSlice_sixteen _ _ _ hr1 hcd hr2]

/-- C9 counterexample: a 17-byte plaintext is neither 16 nor 32 bytes,
yet `encrypt_packet` (with the real AES block cipher under the base
key/IV) does not fail — it encrypts the overlapping leading and trailing
16-byte windows and returns a ciphertext.  The claimed `InvalidLength`
failure for every length outside {16, 32} is therefore false. -/
theorem c9_counterexample :
    (List.range 17).length ≠ 16 ∧ (List.range 17).length ≠ 32 ∧
    encrypt_packet (aesEncryptBlock BASE_KEY) BASE_IV (List.range 17) =
      some [169, 108, 60, 150, 45, 183, 189, 193, 33, 147, 42, 21, 48, 51,
            47, 21, 211] :=
  ⟨by decide, by decide, by decide⟩

/-- C9 (amended): `encrypt_packet` fails (returns `None`) exactly for
inputs shorter than 16 bytes; a 16-byte plaintext is one single-block
CBC encryption; a 32-byte plaintext has its leading and trailing halves
encrypted independently, each with the same IV; every input of length
≥ 16 — lengths 17–31 and ≥ 33 included — produces a ciphertext. -/
theorem c9_encrypt_length (E : List Nat → List Nat) (iv data : List Nat)
    (hE : ∀ x, x.length = 16 → (E x).length = 16) (hiv : iv.length = 16) :
    (data.length < 16 → encrypt_packet E iv data = none) ∧
    (data.length = 16 → encrypt_packet E iv data =
      some (cbcEncBlock E iv data)) ∧
    (data.length = 32 → encrypt_packet E iv data =
      some (cbcEncBlock E iv (data.take 16) ++ cbcEncBlock E iv (data.drop 16))) ∧
    (16 ≤ data.length → (encrypt_packet E iv data).isSome = true) := by
  refine ⟨?_, ?_, ?_, ?_⟩
  · intro h
    unfold encrypt_packet
    rw [if_pos h]
  · exact encrypt_packet_sixteen E iv data hE hiv
  · exact encrypt_packet_thirtytwo E iv data hE hiv
  · intro h
    unfold encrypt_packet
    rw [if_neg (by omega)]
    rfl

/-- Witness for C9 (amended) with the reversal block map at a 32-byte
input. -/
theorem c9_encrypt_length_witness :
    ((List.range 32).length < 16 →
      encrypt_packet List.reverse (List.replicate 16 0) (List.range 32) = none) ∧
    ((List.range 32).length = 16 →
      encrypt_packet List.reverse (List.replicate 16 0) (List.range 32) =
        some (cbcEncBlock List.reverse (List.replicate 16 0) (List.range 32))) ∧
    ((List.range 32).length = 32 →
      encrypt_packet List.reverse (List.replicate 16 0) (List.range 32) =
        some (cbcEncBlock List.reverse (List.replicate 16 0) ((List.range 32).take 16) ++
              cbcEncBlock List.reverse (List.replicate 16 0) ((List.range 32).drop 16))) ∧
    (16 ≤ (List.range 32).length →
      (encrypt_packet List.reverse (List.replicate 16 0) (List.range 32)).isSome = true) :=
  c9_encrypt_length List.reverse (List.replicate 16 0) (List.range 32)
    (fun x hx => by simpa using hx) (by decide)

/-- C2 counterexample: under the real AES block cipher with the base
key/IV, the 16-byte plaintext starting with 250 encrypts to a
ciphertext whose first byte happens to be the 0x55 marker;
`decrypt_packet` then returns that ciphertext unchanged (its pass-through
heuristic), so decrypt ∘ encrypt is not the identity on it. -/
theorem c2_counterexample :
    encrypt_packet (aesEncryptBlock BASE_KEY) BASE_IV
        [250, 0, 0, 0, 0, 0, 0, 0, 0, 0, 0, 0, 0, 0, 0, 0] =
      some [85, 114, 3, 63, 236, 244, 91, 194, 185, 85, 190, 76, 156, 124,
            23, 104] ∧
    decrypt_packet (aesDecryptBlock BASE_KEY) BASE_IV
        [85, 114, 3, 63, 236, 244, 91, 194, 185, 85, 190, 76, 156, 124,
         23, 104] =
      some [85, 114, 3, 63, 236, 244, 91, 194, 185, 85, 190, 76, 156, 124,
            23, 104] ∧
    ([85, 114, 3, 63, 236, 244, 91, 194, 185, 85, 190, 76, 156, 124, 23,
      104] : List Nat) ≠
      [250, 0, 0, 0, 0, 0, 0, 0, 0, 0, 0, 0, 0, 0, 0, 0] :=
  ⟨by decide, by decide, by decide⟩

/-- C2 (amended): for a 16- or 32-byte plaintext and mutually inverse
single-block maps, decrypting the ciphertext returns the plaintext
whenever the ciphertext's first byte is not the 0x55 marker (the
pass-through heuristic of `decrypt_packet` otherwise short-circuits and
breaks the round trip, as the counterexample shows). -/
theorem c2_roundtrip (E D : List Nat → List Nat) (iv p c : List Nat)
    (hD : ∀ x, x.length = 16 → D (E x) = x)
    (hE : ∀ x, x.length = 16 → (E x).length = 16)
    (hDlen : ∀ x, x.length = 16 → (D x).length = 16)
    (hiv : iv.length = 16)
    (hlen : p.length = 16 ∨ p.length = 32)
    (hc : encrypt_packet E iv p = some c)
    (hmark : c.headD 0 ≠ 0x55) :
    decrypt_packet D iv c = some p := by
  have hpne : p ≠ [] := List.ne_nil_of_length_pos (by omega)
  rcases hlen with h16 | h32
  · -- 16-byte payload: one block each way
    have hcval : c = cbcEncBlock E iv p := by
      have := encrypt_packet_sixteen E iv p hE hiv h16
      rw [hc] at this
      exact Option.some_inj.mp this
    have hclen : c.length = 16 := by
      rw [hcval]
      exact cbcEncBlock_length E iv p hE hiv h16
    have hd1 : dec_last_first D iv c = p := by
      rw [dec_last_first_sixteen D iv c hDlen hiv hclen, hcval,
          cbc_block_roundtrip E D iv p hD hiv h16]
    have hd2 : dec_first_last D iv c = p := by
      rw [dec_first_last_sixteen D iv c hDlen hiv hclen, hcval,
          cbc_block_roundtrip E D iv p hD hiv h16]
    unfold decrypt_packet
    rw [if_neg (by omega), if_neg (by rintro ⟨-, hm, -⟩; exact hmark hm)]
    dsimp only
    rw [hd1, hd2]
    by_cases hp : p.headD 0 = 0x55
    · rw [if_pos ⟨hpne, hp⟩]
    · rw [if_neg (by rintro ⟨-, hm⟩; exact hp hm),
          if_neg (by rintro ⟨-, hm⟩; exact hp hm)]
  · -- 32-byte payload: two independent blocks each way
    have hpt : (p.take 16).length = 16 := by rw [List.length_take]; omega
    have hpd : (p.drop 16).length = 16 := by rw [List.length_drop]; omega
    have hr1 : (cbcEncBlock E iv (p.take 16)).length = 16 :=
      cbcEncBlock_length E iv _ hE hiv hpt
    have hr2 : (cbcEncBlock E iv (p.drop 16)).length = 16 :=
      cbcEncBlock_length E iv _ hE hiv hpd
    have hcval : c = cbcEncBlock E iv (p.take 16) ++ cbcEncBlock E iv (p.drop 16) := by
      have := encrypt_packet_thirtytwo E iv p hE hiv h32
      rw [hc] at this
      exact Option.some_inj.mp this
    have hclen : c.length = 32 := by
      rw [hcval, List.length_append, hr1, hr2]
    have hctake : c.take 16 = cbcEncBlock E iv (p.take 16) := by
      rw [hcval, take_len_append _ _ 16 hr1]
    have hcdrop : c.drop 16 = cbcEncBlock E iv (p.drop 16) := by
      rw [hcval, drop_len_append _ _ 16 hr1]
    have hdec : cbcDecBlock D iv (c.take 16) ++ cbcDecBlock D iv (c.drop 16) = p := by
      rw [hctake, hcdrop, cbc_block_roundtrip E D iv _ hD hiv hpt,
          cbc_block_roundtrip E D iv _ hD hiv hpd, List.take_append_drop]
    have hd1 : dec_last_first D iv c = p := by
      rw [dec_last_first_thirtytwo D iv c hDlen hiv hclen, hdec]
    have hd2 : dec_first_last D iv c = p := by
      rw [dec_first_last_thirtytwo D iv c hDlen hiv hclen, hdec]
    unfold decrypt_packet
    rw [if_neg (by omega), if_neg (by rintro ⟨-, hm, -⟩; exact hmark hm)]
    dsimp only
    rw [hd1, hd2]
    by_cases hp : p.headD 0 = 0x55
    · rw [if_pos ⟨hpne, hp⟩]
    · rw [if_neg (by rintro ⟨-, hm⟩; exact hp hm),
          if_neg (by rintro ⟨-, hm⟩; exact hp hm)]

/-- Witness for C2 (amended): reversal block maps, zero IV, 32-byte
payload. -/
theorem c2_roundtrip_witness :
    decrypt_packet List.reverse (List.replicate 16 0)
        [15, 14, 13, 12, 11, 10, 9, 8, 7, 6, 5, 4, 3, 2, 1, 0,
         31, 30, 29, 28, 27, 26, 25, 24, 23, 22, 21, 20, 19, 18, 17, 16] =
      some (List.range 32) :=
  c2_roundtrip List.reverse List.reverse (List.replicate 16 0)
    (List.range 32)
    [15, 14, 13, 12, 11, 10, 9, 8, 7, 6, 5, 4, 3, 2, 1, 0,
     31, 30, 29, 28, 27, 26, 25, 24, 23, 22, 21, 20, 19, 18, 17, 16]
    (fun x _ => by simp)
    (fun x hx => by simpa using hx)
    (fun x hx => by simpa using hx)
    (by decide)
    (Or.inr (by decide))
    (by decide)
    (by decide)

/-- C3 counterexample: a 32-byte ciphertext whose first byte is already
0x55 is returned unchanged by `decrypt_packet` (pass-through heuristic)
— no decryption ordering is attempted at all, contradicting the claim
that every 32-byte ciphertext is decrypted and the first attempt's
output returned when neither ordering yields the marker.  Under the real
AES block cipher with the base key/IV, both orderings' outputs start
with 0x50 (not the marker) and differ from the input, so the claim
predicts the decrypted output, not the input. -/
theorem c3_counterexample :
    decrypt_packet (aesDecryptBlock BASE_KEY) BASE_IV
        (0x55 :: List.replicate 31 0) = some (0x55 :: List.replicate 31 0) ∧
    dec_last_first (aesDecryptBlock BASE_KEY) BASE_IV
        (0x55 :: List.replicate 31 0) ≠ (0x55 :: List.replicate 31 0) ∧
    (dec_last_first (aesDecryptBlock BASE_KEY) BASE_IV
        (0x55 :: List.replicate 31 0)).headD 0 ≠ 0x55 ∧
    (dec_first_last (aesDecryptBlock BASE_KEY) BASE_IV
        (0x55 :: List.replicate 31 0)).headD 0 ≠ 0x55 :=
  ⟨by decide, by decide, by decide, by decide⟩

/-- C3 (amended): for every 32-byte ciphertext whose first byte is not
already the 0x55 marker, `decrypt_packet` decrypts the trailing and
leading 16-byte blocks as two independent single-block CBC operations
re-initialised with the same IV (in both orderings, which therefore
agree), tries trailing-then-leading first, accepts the first result
whose first byte is 0x55 (preferring trailing-then-leading), and
returns the first attempt's output when neither carries the marker. -/
theorem c3_decrypt32 (D : List Nat → List Nat) (iv c : List Nat)
    (hDlen : ∀ x, x.length = 16 → (D x).length = 16)
    (hiv : iv.length = 16) (hn : c.length = 32)
    (hhead : c.headD 0 ≠ 0x55) :
    dec_last_first D iv c =
      cbcDecBlock D iv (c.take 16) ++ cbcDecBlock D iv (c.drop 16) ∧
    dec_first_last D iv c = dec_last_first D iv c ∧
    decrypt_packet D iv c =
      some (if (dec_last_first D iv c).headD 0 = 0x55 then dec_last_first D iv c
            else if (dec_first_last D iv c).headD 0 = 0x55 then
              dec_first_last D iv c
            else dec_last_first D iv c) := by
  have hd1 := dec_last_first_thirtytwo D iv c hDlen hiv hn
  have hd2 := dec_first_last_thirtytwo D iv c hDlen hiv hn
  have hd21 : dec_first_last D iv c = dec_last_first D iv c := by
    rw [hd1, hd2]
  have hd1ne : dec_last_first D iv c ≠ [] := by
    rw [hd1]
    intro hnil
    have := congrArg List.length hnil
    rw [List.length_append,
        cbcDecBlock_length D iv _ hDlen hiv (by rw [List.length_take]; omega)]
      at this
    simp at this
  refine ⟨hd1, hd21, ?_⟩
  unfold decrypt_packet
  rw [if_neg (by omega), if_neg (by rintro ⟨-, hm, -⟩; exact hhead hm)]
  dsimp only
  by_cases hm1 : (dec_last_first D iv c).headD 0 = 0x55
  · rw [if_pos ⟨hd1ne, hm1⟩, if_pos hm1]
  · rw [if_neg (by rintro ⟨-, hm⟩; exact hm1 hm), if_neg hm1, hd21,
        if_neg (by rintro ⟨-, hm⟩; exact hm1 hm), if_neg hm1]

/-- Witness for C3 (amended): reversal block map, zero IV, the 32-byte
ciphertext 0,…,31. -/
theorem c3_decrypt32_witness :
    dec_last_first List.reverse (List.replicate 16 0) (List.range 32) =
      cbcDecBlock List.reverse (List.replicate 16 0) ((List.range 32).take 16) ++
        cbcDecBlock List.reverse (List.replicate 16 0) ((List.range 32).drop 16) ∧
    dec_first_last List.reverse (List.replicate 16 0) (List.range 32) =
      dec_last_first List.reverse (List.replicate 16 0) (List.range 32) ∧
    decrypt_packet List.reverse (List.replicate 16 0) (List.range 32) =
      some (if (dec_last_first List.reverse (List.replicate 16 0)
                  (List.range 32)).headD 0 = 0x55 then
              dec_last_first List.reverse (List.replicate 16 0) (List.range 32)
            else if (dec_first_last List.reverse (List.replicate 16 0)
                  (List.range 32)).headD 0 = 0x55 then
              dec_first_last List.reverse (List.replicate 16 0) (List.range 32)
            else dec_last_first List.reverse (List.replicate 16 0)
              (List.range 32)) :=
  c3_decrypt32 List.reverse (List.replicate 16 0) (List.range 32)
    (fun x hx => by simpa using hx) (by decide) (by decide) (by decide)

theorem bits_from_bytes_length (l : List Nat) :
    (bits_from_bytes l).length = 8 * l.length := by
  induction l with
  | nil => rfl
  | cons b rest ih =>
    simp only [bits_from_bytes, List.map_cons, List.flatten_cons,
      List.length_append, List.length_cons] at ih ⊢
    rw [show (byteBits b).length = 8 from rfl, ih]
    ring

theorem bits_from_bytes_drop2 (b0 b1 : Nat) (rest : List Nat) :
    bits_from_bytes rest = (bits_from_bytes (b0 :: b1 :: rest)).drop 16 := rfl

theorem get_bits_drop16 (bs : List Bool) (s n : Nat) (h : 16 ≤ bs.length) :
    get_bits (bs.drop 16) s n = get_bits bs (16 + s) n := by
  unfold get_bits
  by_cases hn : n = 0
  · simp [hn]
  · rw [if_neg hn, if_neg hn]
    have hlen : (bs.drop 16).length = bs.length - 16 := List.length_drop 16 bs
    by_cases hb : bs.length < 16 + s + n
    · rw [if_pos (by omega), if_pos (by omega)]
    · rw [if_neg (by omega), if_neg (by omega)]
      rw [List.drop_drop]

/-- The canonical (−16-shifted, headerless) field extraction reads
exactly the headered fixed-offset fields. -/
theorem extractArrays_shift16 (bs : List Bool) (h : 16 ≤ bs.length) :
    extractArrays (bs.drop 16) 24 45 61 105 =
      extractArrays bs 40 61 77 121 := by
  unfold extractArrays
  have m1 : (List.range 7).map (fun i => get_bits (bs.drop 16) (24 + 3 * i) 3) =
      (List.range 7).map (fun i => get_bits bs (40 + 3 * i) 3) :=
    List.map_congr_left (fun i _ => by
      rw [get_bits_drop16 bs _ 3 h]
      congr 1
      omega)
  have m2 : (List.range 7).map (fun i => get_bits (bs.drop 16) (45 + 2 * i) 2) =
      (List.range 7).map (fun i => get_bits bs (61 + 2 * i) 2) :=
    List.map_congr_left (fun i _ => by
      rw [get_bits_drop16 bs _ 2 h]
      congr 1
      omega)
  have m3 : (List.range 11).map (fun i => get_bits (bs.drop 16) (61 + 4 * i) 4) =
      (List.range 11).map (fun i => get_bits bs (77 + 4 * i) 4) :=
    List.map_congr_left (fun i _ => by
      rw [get_bits_drop16 bs _ 4 h]
      congr 1
      omega)
  have m4 : (List.range 11).map (fun i => get_bits (bs.drop 16) (105 + i) 1) =
      (List.range 11).map (fun i => get_bits bs (121 + i) 1) :=
    List.map_congr_left (fun i _ => by
      rw [get_bits_drop16 bs _ 1 h]
      congr 1
      omega)
  rw [m1, m2, m3, m4]

/-- The Python `set(l) == set(range(n))` check unfolded to memberships. -/
theorem setEqRange_true_iff (l : List Int) (n : Nat) :
    setEqRange l n = true ↔
      (∀ x ∈ rangeInt n, x ∈ l) ∧ (∀ x ∈ l, x ∈ rangeInt n) := by
  unfold setEqRange rangeInt
  simp

/-- `length = n` together with the Python `set(l) == set(range(n))`
check is exactly "l is a permutation of 0..n−1". -/
theorem perm_range_iff (l : List Int) (n : Nat) :
    (l.length = n ∧ setEqRange l n = true) ↔ l.Perm (rangeInt n) := by
  rw [setEqRange_true_iff]
  constructor
  · rintro ⟨hlen, hsub1, hsub2⟩
    have hnd : (rangeInt n).Nodup :=
      (List.nodup_range n).map (fun a b h => Int.ofNat.inj h)
    have hsp : (rangeInt n).Subperm l := List.subperm_of_subset hnd hsub1
    have hlen2 : l.length ≤ (rangeInt n).length := by
      unfold rangeInt
      rw [List.length_map, List.length_range]
      omega
    exact (hsp.perm_of_length_le hlen2).symm
  · intro hp
    refine ⟨?_, fun x hx => hp.mem_iff.mpr hx, fun x hx => hp.mem_iff.mp hx⟩
    rw [hp.length_eq]
    unfold rangeInt
    rw [List.length_map, List.length_range]

theorem all_bounds_iff (l : List Int) (lo hi : Int) :
    (l.all (fun x => decide (lo ≤ x) && decide (x ≤ hi)) = true) ↔
      ∀ x ∈ l, lo ≤ x ∧ x ≤ hi := by
  simp

/-- The completed arrays produced by `extractArrays` always have shape
8/8/12/12. -/
theorem extractArrays_shape (bits : List Bool) (cpS coS epS eoS : Nat)
    (a : CubeArrays) (h : extractArrays bits cpS coS epS eoS = some a) :
    a.cp.length = 8 ∧ a.co.length = 8 ∧ a.ep.length = 12 ∧
      a.eo.length = 12 := by
  unfold extractArrays at h
  dsimp only at h
  split at h
  · exact absurd h (by simp)
  · have := Option.some_inj.mp h
    subst this
    simp

/-- The headered parse's validity test agrees with the spec-level
validity predicate (on arrays of the shape the extraction produces). -/
theorem arraysValidHeadered_iff (a : CubeArrays) (hcol : a.co.length = 8)
    (heol : a.eo.length = 12) :
    arraysValidHeadered a = true ↔ ClaimValidArrays a := by
  unfold arraysValidHeadered ClaimValidArrays
  simp only [Bool.and_eq_true, decide_eq_true_eq]
  constructor
  · rintro ⟨⟨⟨⟨hcpl, hcps⟩, -, hco2⟩, hepl, heps⟩, -, heo2⟩
    exact ⟨(perm_range_iff _ _).mp ⟨hcpl, hcps⟩,
           (all_bounds_iff _ _ _).mp hco2,
           (perm_range_iff _ _).mp ⟨hepl, heps⟩,
           (all_bounds_iff _ _ _).mp heo2⟩
  · rintro ⟨hcp, hco2, hep, heo2⟩
    obtain ⟨hcpl, hcps⟩ := (perm_range_iff _ _).mpr hcp
    obtain ⟨hepl, heps⟩ := (perm_range_iff _ _).mpr hep
    exact ⟨⟨⟨⟨hcpl, hcps⟩, hcol, (all_bounds_iff _ _ _).mpr hco2⟩,
        hepl, heps⟩, heol, (all_bounds_iff _ _ _).mpr heo2⟩

/-- The bit-string parse's validity test (with its redundant min/max
bounds) also agrees with the spec-level validity predicate. -/
theorem arraysValid_iff (a : CubeArrays) (hcol : a.co.length = 8)
    (heol : a.eo.length = 12) :
    arraysValid a = true ↔ ClaimValidArrays a := by
  unfold arraysValid ClaimValidArrays
  simp only [Bool.and_eq_true, decide_eq_true_eq]
  constructor
  · rintro ⟨⟨⟨⟨⟨hcpl, hcpb⟩, hcps⟩, -, hco2⟩, ⟨hepl, hepb⟩, heps⟩, -, heo2⟩
    exact ⟨(perm_range_iff _ _).mp ⟨hcpl, hcps⟩,
           (all_bounds_iff _ _ _).mp hco2,
           (perm_range_iff _ _).mp ⟨hepl, heps⟩,
           (all_bounds_iff _ _ _).mp heo2⟩
  · rintro ⟨hcp, hco2, hep, heo2⟩
    obtain ⟨hcpl, hcps⟩ := (perm_range_iff _ _).mpr hcp
    obtain ⟨hepl, heps⟩ := (perm_range_iff _ _).mpr hep
    refine ⟨⟨⟨⟨⟨hcpl, ?_⟩, hcps⟩, hcol, (all_bounds_iff _ _ _).mpr hco2⟩,
        ⟨hepl, ?_⟩, heps⟩, heol, (all_bounds_iff _ _ _).mpr heo2⟩
    · rw [all_bounds_iff]
      intro x hx
      have hm := ((perm_range_iff _ _).mpr hcp).2
      have := (setEqRange_true_iff a.cp 8).mp hm
      have hx2 := this.2 x hx
      unfold rangeInt at hx2
      simp only [List.mem_map, List.mem_range] at hx2
      obtain ⟨k, hk, rfl⟩ := hx2
      rw [Int.ofNat_eq_natCast]
      constructor
      · exact_mod_cast Nat.zero_le k
      · exact_mod_cast Nat.lt_succ_iff.mp hk
    · rw [all_bounds_iff]
      intro x hx
      have hm := ((perm_range_iff _ _).mpr hep).2
      have := (setEqRange_true_iff a.ep 12).mp hm
      have hx2 := this.2 x hx
      unfold rangeInt at hx2
      simp only [List.mem_map, List.mem_range] at hx2
      obtain ⟨k, hk, rfl⟩ := hx2
      rw [Int.ofNat_eq_natCast]
      constructor
      · exact_mod_cast Nat.zero_le k
      · exact_mod_cast Nat.lt_succ_iff.mp hk

/-- C1 (amended): a headered facelets frame whose completed fixed-offset
arrays (CP@40, CO@61, EP@77, EO@121) violate the validity conditions is
rejected by both fixed-offset parses — the headered parse and the
canonical −16-shifted parse of the header-stripped body both return no
parse (`MalformedState`).  (The full solved predicate is *not* false for
every such frame: its variant-search/unvalidated fallback can still
report solved, see the counterexample.) -/
theorem c1_malformed_rejected (clear : List Nat) (a : CubeArrays)
    (h19 : 19 ≤ clear.length)
    (h0 : clear.getD 0 0 = 0x55) (h1 : clear.getD 1 0 = 0x02)
    (hext : extractArrays (bits_from_bytes clear) 40 61 77 121 = some a)
    (hmal : ¬ ClaimValidArrays a) :
    parse_facelets_headered clear = none ∧
    parse_facelets_canonical (clear.drop 2) = none := by
  obtain ⟨-, hcol, -, heol⟩ := extractArrays_shape _ _ _ _ _ _ hext
  have hvH : ¬ (arraysValidHeadered a = true) := fun h =>
    hmal ((arraysValidHeadered_iff a hcol heol).mp h)
  have hvB : ¬ (arraysValid a = true) := fun h =>
    hmal ((arraysValid_iff a hcol heol).mp h)
  constructor
  · unfold parse_facelets_headered
    rw [if_neg (by push_neg; exact ⟨by omega, h0, h1⟩), hext]
    dsimp only
    rw [if_neg hvH]
  · match clear, h19 with
    | b0 :: b1 :: rest, h19 =>
      have hrest : (b0 :: b1 :: rest).drop 2 = rest := rfl
      rw [hrest]
      have hrl : 17 ≤ rest.length := by
        simp only [List.length_cons] at h19
        omega
      have hbits : bits_from_bytes rest =
          (bits_from_bytes (b0 :: b1 :: rest)).drop 16 :=
        bits_from_bytes_drop2 b0 b1 rest
      have hblen : (bits_from_bytes (b0 :: b1 :: rest)).length =
          8 * (b0 :: b1 :: rest).length := bits_from_bytes_length _
      unfold parse_facelets_canonical
      rw [if_neg (by omega)]
      unfold parse_facelets_arrays_from_bitstr
      dsimp only
      rw [if_neg (by decide)]
      rw [if_neg (by
        rw [bits_from_bytes_length]
        omega)]
      rw [show ((40 : Int) + -16).toNat = 24 from by decide,
          show ((61 : Int) + -16).toNat = 45 from by decide,
          show ((77 : Int) + -16).toNat = 61 from by decide,
          show ((121 : Int) + -16).toNat = 105 from by decide]
      rw [hbits, extractArrays_shift16 _ (by omega), hext]
      dsimp only
      rw [if_neg hvB]

/-- Witness for C1 (amended) at a concrete malformed headered frame. -/
theorem c1_malformed_rejected_witness :
    parse_facelets_headered
        [85, 2, 47, 45, 144, 166, 154, 5, 57, 118, 0, 8, 9, 26, 43, 60, 77,
         0, 6] = none ∧
    parse_facelets_canonical
        (([85, 2, 47, 45, 144, 166, 154, 5, 57, 118, 0, 8, 9, 26, 43, 60,
           77, 0, 6] : List Nat).drop 2) = none :=
  c1_malformed_rejected
    [85, 2, 47, 45, 144, 166, 154, 5, 57, 118, 0, 8, 9, 26, 43, 60, 77, 0, 6]
    ⟨[5, 1, 5, 1, 5, 0, 0, 11], [2, 2, 1, 3, 0, 2, 3, 2],
     [12, 0, 0, 1, 0, 1, 2, 3, 4, 5, 6, 32],
     [0, 1, 1, 1, 1, 0, 0, 0, 1, 0, 0, 1]⟩
    (by decide) (by decide) (by decide) (by decide) (by decide)

set_option maxHeartbeats 10000000 in
/-- C1 counterexample: this 19-byte headered facelets frame has
fixed-offset completed arrays that are invalid in every component-class
the claim lists (CP not a permutation of 0–7, a corner orientation of 3,
EP not a permutation of 0–11), yet `_is_solved_facelets` reports it as
solved: all validated parses fail, and the non-validated
"default-unaligned" fallback parse of the body happens to stringify to
the canonical solved facelet string.  The claim that the solved
predicate returns false for every such frame is therefore violated. -/
theorem c1_counterexample :
    extractArrays
        (bits_from_bytes
          [85, 2, 47, 45, 144, 166, 154, 5, 57, 118, 0, 8, 9, 26, 43, 60,
           77, 0, 6]) 40 61 77 121 =
      some ⟨[5, 1, 5, 1, 5, 0, 0, 11], [2, 2, 1, 3, 0, 2, 3, 2],
            [12, 0, 0, 1, 0, 1, 2, 3, 4, 5, 6, 32],
            [0, 1, 1, 1, 1, 0, 0, 0, 1, 0, 0, 1]⟩ ∧
    ¬ ClaimValidArrays
        ⟨[5, 1, 5, 1, 5, 0, 0, 11], [2, 2, 1, 3, 0, 2, 3, 2],
         [12, 0, 0, 1, 0, 1, 2, 3, 4, 5, 6, 32],
         [0, 1, 1, 1, 1, 0, 0, 0, 1, 0, 0, 1]⟩ ∧
    is_solved_facelets
        [85, 2, 47, 45, 144, 166, 154, 5, 57, 118, 0, 8, 9, 26, 43, 60, 77,
         0, 6] = true :=
  ⟨by decide, by decide, by decide⟩

end CubeAlarm
